import Mathlib

/-!
Verification development for a small HTTP/1.x server (request parser,
response builder, static file handler, upload filename sanitizer, CGI
output translation, and routing).  The C++ sources are modelled by a
shallow embedding: byte strings become `List Char`, `std::map` becomes a
key-sorted association list, and every filesystem or process effect is
passed in as an explicit oracle argument.
-/

set_option maxRecDepth 100000

abbrev Str : Type := List Char

/-- Convert a Lean string literal to the byte-list representation. -/
def str (s : String) : Str := s.data

/-- Whitespace set used by `std::istringstream` token extraction. -/
def isStreamWs (c : Char) : Bool :=
  c = ' ' || c = '\t' || c = '\n' || c = '\x0b' || c = '\x0c' || c = '\r'

/-- Whitespace set used by the header `trim` helper (" \t\r\n"). -/
def isTrimWs (c : Char) : Bool :=
  c = ' ' || c = '\t' || c = '\r' || c = '\n'

/-- Model of `::tolower` in the C locale on ASCII data. -/
def toLowerC (c : Char) : Char :=
  if 'A' ≤ c ∧ c ≤ 'Z' then Char.ofNat (c.toNat + 32) else c

def toLowerStr (s : Str) : Str := s.map toLowerC

/-- Model of the `trim` helper in HttpRequest.cpp: strip surrounding " \t\r\n". -/
def trimStr (s : Str) : Str :=
  ((s.dropWhile isTrimWs).reverse.dropWhile isTrimWs).reverse

/-- Whitespace splitting as performed by `iss >> tok` chains: maximal runs of
non-whitespace characters, in order. -/
def splitWsAux : Str → Str → List Str
  | [], cur => if cur = [] then [] else [cur.reverse]
  | c :: rest, cur =>
    if isStreamWs c then
      if cur = [] then splitWsAux rest []
      else cur.reverse :: splitWsAux rest []
    else splitWsAux rest (c :: cur)

def splitWs (s : Str) : List Str := splitWsAux s []

/-- Lexicographic byte-wise comparison, as `std::string::operator<`. -/
def strLt : Str → Str → Bool
  | [], [] => false
  | [], _ :: _ => true
  | _ :: _, [] => false
  | a :: as, b :: bs => if a < b then true else if b < a then false else strLt as bs

/-- Insertion into a key-sorted association list; models `std::map`
assignment `m[k] = v` (last write for a duplicate key wins). -/
def mapInsert (k v : Str) : List (Str × Str) → List (Str × Str)
  | [] => [(k, v)]
  | (k', v') :: rest =>
    if strLt k k' then (k, v) :: (k', v') :: rest
    else if strLt k' k then (k', v') :: mapInsert k v rest
    else (k, v) :: rest

/-- Lookup in the association list; models `std::map::find`. -/
def mapFind (k : Str) : List (Str × Str) → Option Str
  | [] => none
  | (k', v') :: rest => if k = k' then some v' else mapFind k rest

/-- Helper for `strFind`: scan for the needle starting at relative index `i`. -/
def strFindAux (needle : Str) : Str → Nat → Option Nat
  | [], i => if needle.isPrefixOf ([] : Str) then some i else none
  | c :: rest, i =>
    if needle.isPrefixOf (c :: rest) then some i else strFindAux needle rest (i + 1)

/-- Model of `std::string::find(needle, pos)`: index of the first occurrence
of `needle` at or after `pos`, or `none` for `npos`. -/
def strFind (hay needle : Str) (pos : Nat) : Option Nat :=
  (strFindAux needle (hay.drop pos) 0).map (· + pos)

/-- Model of `std::string::find_first_not_of(set)`. -/
def findFirstNotOf (s : Str) (set : List Char) : Option Nat :=
  s.findIdx? (fun c => !(set.contains c))

/-- Model of `std::string::find_last_of(set)`: index of the last character
belonging to `set`. -/
def findLastOf (s : Str) (set : List Char) : Option Nat :=
  (List.range s.length).foldl
    (fun acc i => if set.contains (s.getD i ' ') then some i else acc) none

/-- Model of `std::string::substr(pos, cnt)` (in-range uses only). -/
def substrL (s : Str) (pos cnt : Nat) : Str := (s.drop pos).take cnt

/-- Decimal rendering of a natural number. -/
def natToStr (n : Nat) : Str := Nat.toDigits 10 n

def isDigitC (c : Char) : Bool := '0' ≤ c ∧ c ≤ '9'

/-- Model of `istringstream >> size_t` on the nonnegative decimal inputs that
occur here: skip leading whitespace, then read a digit run; the target keeps
its previous value (`0` in every reachable caller) when no digits are found. -/
def parseSizeT (s : Str) : Nat :=
  let t := s.dropWhile isStreamWs
  (t.takeWhile isDigitC).foldl (fun acc c => acc * 10 + (c.toNat - '0'.toNat)) 0

/-- Digit-run accumulator used in the `atoi` model. -/
def digitsToInt (l : Str) : Int :=
  l.foldl (fun (acc : Int) c => acc * 10 + ((c.toNat : Int) - ('0'.toNat : Int))) 0

/-- Model of `atoi`: skip whitespace, optional sign, digit run (0 if none). -/
def atoiM (s : Str) : Int :=
  let t := s.dropWhile isStreamWs
  match t with
  | '-' :: rest => -(digitsToInt (rest.takeWhile isDigitC))
  | '+' :: rest => digitsToInt (rest.takeWhile isDigitC)
  | _ => digitsToInt (t.takeWhile isDigitC)

/-- Split on `'\n'` exactly as repeated `std::getline(ss, line)` does: the
final segment is produced even without a trailing newline, and a trailing
newline does not produce an extra empty segment. -/
def getlineAux : Str → Str → List Str
  | [], cur => if cur = [] then [] else [cur.reverse]
  | c :: rest, cur =>
    if c = '\n' then cur.reverse :: getlineAux rest []
    else getlineAux rest (c :: cur)

def getlineSplit (s : Str) : List Str := getlineAux s []

/-! ## Request parser (HttpRequest.cpp) -/

inductive HttpMethod where
  | GET | POST | DELETE | PUT | HEAD | UNKNOWN
deriving DecidableEq

inductive ParseState where
  | REQUEST_LINE | HEADERS | BODY | COMPLETE | ERROR
deriving DecidableEq

structure HttpRequest where
  method : HttpMethod
  uri : Str
  query_string : Str
  http_version : Str
  headers : List (Str × Str)
  body : Str
  state : ParseState
  raw_data : Str
  bytes_parsed : Nat
  content_length : Nat
  boundary : Str
  error_code : Nat
deriving DecidableEq

/-- The state set up by the `HttpRequest` constructor (all strings empty). -/
def freshReq : HttpRequest :=
  { method := .UNKNOWN, uri := [], query_string := [], http_version := [],
    headers := [], body := [], state := .REQUEST_LINE, raw_data := [],
    bytes_parsed := 0, content_length := 0, boundary := [], error_code := 0 }

/-- Model of `HttpRequest::reset`: every field is cleared / reinitialized. -/
def resetReq (r : HttpRequest) : HttpRequest :=
  { r with
    method := .UNKNOWN
    uri := []
    query_string := []
    http_version := []
    headers := []
    body := []
    state := .REQUEST_LINE
    raw_data := []
    bytes_parsed := 0
    content_length := 0
    boundary := []
    error_code := 0 }

def stringToMethod (s : Str) : HttpMethod :=
  if s = str "GET" then .GET
  else if s = str "POST" then .POST
  else if s = str "DELETE" then .DELETE
  else if s = str "PUT" then .PUT
  else if s = str "HEAD" then .HEAD
  else .UNKNOWN

def methodString : HttpMethod → Str
  | .GET => str "GET"
  | .POST => str "POST"
  | .DELETE => str "DELETE"
  | .PUT => str "PUT"
  | .HEAD => str "HEAD"
  | .UNKNOWN => str "UNKNOWN"

/-- Model of `HttpRequest::getHeader` (keys are stored lower-cased). -/
def getHeaderReq (r : HttpRequest) (key : Str) : Str :=
  match mapFind (toLowerStr key) r.headers with
  | some v => v
  | none => []

/-- Model of `HttpRequest::isChunked`. -/
def isChunkedReq (r : HttpRequest) : Bool :=
  strFind (toLowerStr (getHeaderReq r (str "Transfer-Encoding"))) (str "chunked") 0 ≠ none

/-- Model of `HttpRequest::parseQueryString`: split the stored URI at the
first `?`. -/
def parseQueryString (r : HttpRequest) : HttpRequest :=
  match strFind r.uri (str "?") 0 with
  | some p => { r with query_string := r.uri.drop (p + 1), uri := r.uri.take p }
  | none => r

/-- Model of `HttpRequest::parseRequestLine`.  The `iss >> method_str >> uri
>> http_version` chain assigns each target its whitespace token in order; a
target whose extraction fails keeps its previous value. -/
def parseRequestLine (r : HttpRequest) (line : Str) : HttpRequest :=
  let t := splitWs line
  let method_str := t.headD []
  let m := stringToMethod method_str
  let r1 : HttpRequest :=
    { r with
      uri := t.getD 1 r.uri
      http_version := t.getD 2 r.http_version
      method := m }
  if m = .UNKNOWN then { r1 with error_code := 405, state := .ERROR }
  else if r1.uri = [] ∨ r1.http_version = [] then { r1 with error_code := 400, state := .ERROR }
  else if r1.http_version ≠ str "HTTP/1.1" ∧ r1.http_version ≠ str "HTTP/1.0" then
    { r1 with error_code := 505, state := .ERROR }
  else { (parseQueryString r1) with state := .HEADERS }

/-- Model of `HttpRequest::parseHeader`: split at the first `:`, trim both
sides, store under the lower-cased key. -/
def parseHeader (r : HttpRequest) (line : Str) : HttpRequest :=
  match strFind line (str ":") 0 with
  | none => { r with error_code := 400, state := .ERROR }
  | some pos =>
    let key := trimStr (line.take pos)
    let value := trimStr (line.drop (pos + 1))
    { r with headers := mapInsert (toLowerStr key) value r.headers }

/-- Model of the empty-line branch ending the header block: parse
Content-Length, extract the multipart boundary, and choose the next state. -/
def finishHeaders (r : HttpRequest) : HttpRequest :=
  let content_len_str := getHeaderReq r (str "Content-Length")
  let cl := if content_len_str ≠ [] then parseSizeT content_len_str else r.content_length
  let content_type := getHeaderReq r (str "Content-Type")
  let bdy :=
    if strFind content_type (str "multipart/form-data") 0 ≠ none then
      match strFind content_type (str "boundary=") 0 with
      | some bpos =>
        let b := content_type.drop (bpos + 9)
        if b ≠ [] ∧ b.headD ' ' = '"' ∧ b.getLastD ' ' = '"' then
          (b.drop 1).take (b.length - 2)
        else b
      | none => r.boundary
    else r.boundary
  let r1 := { r with content_length := cl, boundary := bdy }
  if cl > 0 ∨ isChunkedReq r1 then { r1 with state := .BODY }
  else { r1 with state := .COMPLETE }

/-- One pass of the `while` loop in `HttpRequest::parse`, with fuel.  The
fuel never runs out for the fuel value supplied by `parse` (see
`parseLoop_fuel_irrelevant`). -/
def parseLoop : Nat → HttpRequest → HttpRequest × Bool
  | 0, r => (r, decide (r.state = .COMPLETE))
  | fuel + 1, r =>
    if r.state = .COMPLETE then (r, true)
    else if r.state = .ERROR then (r, false)
    else if r.state = .BODY then
      if isChunkedReq r then ({ r with error_code := 501, state := .ERROR }, false)
      else if r.content_length ≤ r.raw_data.length - r.bytes_parsed then
        parseLoop fuel
          { r with
            body := substrL r.raw_data r.bytes_parsed r.content_length
            bytes_parsed := r.bytes_parsed + r.content_length
            state := .COMPLETE }
      else (r, false)
    else
      match strFind r.raw_data (str "\r\n") r.bytes_parsed with
      | none =>
        if r.raw_data.length > 8192 then
          ({ r with error_code := 431, state := .ERROR }, false)
        else (r, false)
      | some line_end =>
        let line := substrL r.raw_data r.bytes_parsed (line_end - r.bytes_parsed)
        let r1 := { r with bytes_parsed := line_end + 2 }
        let r2 :=
          if r.state = .REQUEST_LINE then parseRequestLine r1 line
          else if line = [] then finishHeaders r1
          else parseHeader r1 line
        parseLoop fuel r2

/-- Run the parse loop with adequate fuel. -/
def runLoop (r : HttpRequest) : HttpRequest × Bool :=
  parseLoop (r.raw_data.length + 2) r

/-- Model of `HttpRequest::parse(data, len)`. -/
def parse (r : HttpRequest) (data : Str) : HttpRequest × Bool :=
  if r.state = .COMPLETE ∨ r.state = .ERROR then (r, decide (r.state = .COMPLETE))
  else runLoop { r with raw_data := r.raw_data ++ data }

/-- Feed a sequence of chunks to the parser one `parse` call at a time. -/
def feedAll (r : HttpRequest) (chunks : List Str) : HttpRequest × Bool :=
  chunks.foldl (fun p c => parse p.1 c) (r, false)

/-- The observable request fields named by the chunk-independence property
(everything except the internal `raw_data` / `bytes_parsed` cursor). -/
def obsReq (r : HttpRequest) :
    HttpMethod × Str × Str × Str × List (Str × Str) × Str × Nat × Nat :=
  (r.method, r.uri, r.query_string, r.http_version, r.headers, r.body,
   r.content_length, r.error_code)

/-! ## Response builder (HttpResponse.cpp).  The status-message table, header
map and body are modelled exactly; `loadErrorPage`'s filesystem read is an
explicit oracle argument `fsRead` (the content of `www/errors/<code>.html`,
or `none` when the file cannot be opened). -/

structure HttpResponse where
  status_code : Nat
  status_message : Str
  headers : List (Str × Str)
  body : Str
deriving DecidableEq

def getStatusMessage (code : Nat) : Str :=
  if code = 200 then str "OK"
  else if code = 201 then str "Created"
  else if code = 204 then str "No Content"
  else if code = 301 then str "Moved Permanently"
  else if code = 302 then str "Found"
  else if code = 304 then str "Not Modified"
  else if code = 400 then str "Bad Request"
  else if code = 403 then str "Forbidden"
  else if code = 404 then str "Not Found"
  else if code = 405 then str "Method Not Allowed"
  else if code = 413 then str "Payload Too Large"
  else if code = 431 then str "Request Header Fields Too Large"
  else if code = 500 then str "Internal Server Error"
  else if code = 501 then str "Not Implemented"
  else if code = 505 then str "HTTP Version Not Supported"
  else str "Unknown"

def setHeaderResp (r : HttpResponse) (k v : Str) : HttpResponse :=
  { r with headers := mapInsert k v r.headers }

/-- Model of the `HttpResponse(int code)` constructor. -/
def newResponse (code : Nat) : HttpResponse :=
  setHeaderResp
    { status_code := code, status_message := getStatusMessage code,
      headers := [], body := [] }
    (str "Server") (str "WebServ/1.0")

def setBodyResp (r : HttpResponse) (content : Str) : HttpResponse :=
  setHeaderResp { r with body := content } (str "Content-Length") (natToStr content.length)

def setContentTypeResp (r : HttpResponse) (mime : Str) : HttpResponse :=
  setHeaderResp r (str "Content-Type") mime

/-- Model of `HttpResponse::build`: the serialized status line, headers and
body (the header map is already key-sorted, like `std::map` iteration). -/
def buildResp (r : HttpResponse) : Str :=
  (str "HTTP/1.1 " ++ natToStr r.status_code ++ str " " ++ r.status_message ++ str "\r\n")
  ++ (r.headers.foldl (fun acc kv => acc ++ kv.1 ++ str ": " ++ kv.2 ++ str "\r\n") [])
  ++ str "\r\n" ++ r.body

/-- Model of `HttpResponse::loadErrorPage`; `fsRead` is the filesystem. -/
def loadErrorPage (fsRead : Str → Option Str) (error_code : Str) : Str :=
  match fsRead (str "www/errors/" ++ error_code ++ str ".html") with
  | some content => content
  | none => str "<html><body><h1>" ++ error_code ++ str " Error</h1></body></html>"

namespace HttpResponse

def ok (content content_type : Str) : HttpResponse :=
  setBodyResp (setContentTypeResp (newResponse 200) content_type) content

def created (location : Str) : HttpResponse :=
  let r := newResponse 201
  let r := if location ≠ [] then setHeaderResp r (str "Location") location else r
  setContentTypeResp (setBodyResp r (str "<html><body><h1>201 Created</h1></body></html>"))
    (str "text/html")

def noContent : HttpResponse := newResponse 204

def redirect (location : Str) (code : Nat) : HttpResponse :=
  let r := setHeaderResp (newResponse code) (str "Location") location
  let bdy := str "<html><body><h1>Redirect</h1><p>Redirecting to <a href=\"" ++
    location ++ str "\">" ++ location ++ str "</a></p></body></html>"
  setContentTypeResp (setBodyResp r bdy) (str "text/html")

def badRequest (message : Str) : HttpResponse :=
  let bdy := str "<html><body><h1>400 Bad Request</h1><p>" ++ message ++ str "</p></body></html>"
  setContentTypeResp (setBodyResp (newResponse 400) bdy) (str "text/html")

def notFound (fsRead : Str → Option Str) (message : Str) : HttpResponse :=
  let bdy := loadErrorPage fsRead (str "404")
  let bdy :=
    if bdy = str "<html><body><h1>404 Error</h1></body></html>" then
      str "<html><body><h1>404 Not Found</h1><p>" ++ message ++ str "</p></body></html>"
    else bdy
  setContentTypeResp (setBodyResp (newResponse 404) bdy) (str "text/html")

def methodNotAllowed (message : Str) : HttpResponse :=
  let bdy := str "<html><body><h1>405 Method Not Allowed</h1><p>" ++ message ++
    str "</p></body></html>"
  setContentTypeResp (setBodyResp (newResponse 405) bdy) (str "text/html")

def internalServerError (fsRead : Str → Option Str) (message : Str) : HttpResponse :=
  let bdy := loadErrorPage fsRead (str "500")
  let bdy :=
    if bdy = str "<html><body><h1>500 Error</h1></body></html>" then
      str "<html><body><h1>500 Internal Server Error</h1><p>" ++ message ++
        str "</p></body></html>"
    else bdy
  setContentTypeResp (setBodyResp (newResponse 500) bdy) (str "text/html")

def notImplemented (message : Str) : HttpResponse :=
  let bdy := str "<html><body><h1>501 Not Implemented</h1><p>" ++ message ++
    str "</p></body></html>"
  setContentTypeResp (setBodyResp (newResponse 501) bdy) (str "text/html")

def payloadTooLarge (message : Str) : HttpResponse :=
  let bdy := str "<html><body><h1>413 Payload Too Large</h1><p>" ++ message ++
    str "</p></body></html>"
  setContentTypeResp (setBodyResp (newResponse 413) bdy) (str "text/html")

end HttpResponse

/-! ## Multiplexer parse-error synthesis (Server.cpp, `_handleClientData`). -/

/-- The error response the multiplexer synthesizes immediately after the
parser reports a terminal parse error with code `err`. -/
def parseErrorResponse (err : Nat) : HttpResponse :=
  if err = 405 then HttpResponse.methodNotAllowed (str "Method not allowed")
  else if err = 505 then HttpResponse.notImplemented (str "HTTP Version Not Supported")
  else HttpResponse.badRequest (str "Bad Request")

/-! ## CGI output translation (Server.cpp, tail of `_executeCgi`).  The
subprocess exchange itself is I/O; its captured stdout `cgi_output` is the
input here, and the error-page filesystem is the `fsRead` oracle. -/

/-- Scan the CGI header block for `Content-Type` and `Status`, starting from
the defaults `text/html` and 200. -/
def cgiHeaderScan (lines : List Str) : Str × Int :=
  lines.foldl
    (fun acc hline =>
      let hline := if hline ≠ [] ∧ hline.getLastD ' ' = '\r' then hline.take (hline.length - 1) else hline
      if hline = [] then acc
      else
        match strFind hline (str ":") 0 with
        | none => acc
        | some colon =>
          let hname := hline.take colon
          let hval := hline.drop (colon + 1)
          let hval :=
            match findFirstNotOf hval [' ', '\t'] with
            | some vs => hval.drop vs
            | none => hval
          let hn_lower := toLowerStr hname
          if hn_lower = str "content-type" then (hval, acc.2)
          else if hn_lower = str "status" then (acc.1, atoiM hval)
          else acc)
    (str "text/html", (200 : Int))

/-- Split the captured CGI output at the first blank-line separator and scan
its header block; returns (response body, content type, parsed status). -/
def cgiParseOutput (cgi_output : Str) : Str × Str × Int :=
  let sepInfo : Option (Nat × Nat) :=
    match strFind cgi_output (str "\r\n\r\n") 0 with
    | some s => some (s, 4)
    | none =>
      match strFind cgi_output (str "\n\n") 0 with
      | some s => some (s, 2)
      | none => none
  match sepInfo with
  | some (sep, sep_len) =>
    let headers_raw := cgi_output.take sep
    let response_body := cgi_output.drop (sep + sep_len)
    let (ct, code) := cgiHeaderScan (getlineSplit headers_raw)
    (response_body, ct, code)
  | none => (cgi_output, str "text/html", 200)

/-- The status code the CGI gateway parses out of the `Status:` header. -/
def cgiParsedStatus (cgi_output : Str) : Int := (cgiParseOutput cgi_output).2.2

/-- Model of the response-construction tail of `Server::_executeCgi` given
the captured subprocess output: empty output yields 500; otherwise the
response is built with `HttpResponse::ok` (always status 200 — the parsed
`Status` value is computed but never applied). -/
def cgiTranslate (fsRead : Str → Option Str) (cgi_output : Str) : HttpResponse :=
  if cgi_output = [] then
    HttpResponse.internalServerError fsRead (str "CGI produced no output")
  else
    let out := cgiParseOutput cgi_output
    HttpResponse.ok out.1 out.2.1

/-! ## Static file handler (StaticFileHandler.cpp).  Filesystem calls are
collected in an `Fs` oracle: `statOk p` is stat() success, `statIsDir p` the
S_ISDIR bit, `readOk` the open-and-read result, `removeOk` remove() success,
and `entries` the readdir() sequence (which includes "." and ".."). -/

structure Fs where
  statOk : Str → Bool
  statIsDir : Str → Bool
  readOk : Str → Option Str
  removeOk : Str → Bool
  entries : Str → List Str

def fileExistsF (fs : Fs) (path : Str) : Bool := fs.statOk path

def isDirectoryF (fs : Fs) (path : Str) : Bool :=
  if fs.statOk path then fs.statIsDir path else false

/-- Model of `StaticFileHandler::getMimeType`. -/
def getMimeType (path : Str) : Str :=
  match findLastOf path ['.'] with
  | none => str "application/octet-stream"
  | some dot_pos =>
    let ext := toLowerStr (path.drop dot_pos)
    if ext = str ".html" ∨ ext = str ".htm" then str "text/html"
    else if ext = str ".css" then str "text/css"
    else if ext = str ".js" then str "application/javascript"
    else if ext = str ".json" then str "application/json"
    else if ext = str ".xml" then str "application/xml"
    else if ext = str ".jpg" ∨ ext = str ".jpeg" then str "image/jpeg"
    else if ext = str ".png" then str "image/png"
    else if ext = str ".gif" then str "image/gif"
    else if ext = str ".svg" then str "image/svg+xml"
    else if ext = str ".ico" then str "image/x-icon"
    else if ext = str ".txt" then str "text/plain"
    else if ext = str ".pdf" then str "application/pdf"
    else if ext = str ".zip" then str "application/zip"
    else if ext = str ".mp3" then str "audio/mpeg"
    else if ext = str ".mp4" then str "video/mp4"
    else if ext = str ".woff" then str "font/woff"
    else if ext = str ".woff2" then str "font/woff2"
    else if ext = str ".ttf" then str "font/ttf"
    else str "application/octet-stream"

/-- Model of `StaticFileHandler::combinePaths` (PATH_SEPARATOR is '/'). -/
def combinePaths (base relative : Str) : Str :=
  let result :=
    if base ≠ [] ∧ base.getLastD ' ' ≠ '/' ∧ base.getLastD ' ' ≠ '\\' then base ++ ['/']
    else base
  let rel :=
    if relative ≠ [] ∧ (relative.headD ' ' = '/' ∨ relative.headD ' ' = '\\') then
      relative.drop 1
    else relative
  let rel := rel.map (fun c => if c = '/' ∨ c = '\\' then '/' else c)
  result ++ rel

/-- Model of `StaticFileHandler::isPathSafe`: reject any URI containing
the substring "..". -/
def isPathSafe (path : Str) : Bool := strFind path (str "..") 0 = none

/-- Model of `StaticFileHandler::generateDirectoryListing`. -/
def generateDirectoryListing (fs : Fs) (dir_path uri : Str) : Str :=
  let headPart :=
    str "<html><head><title>Index of " ++ uri ++ str "</title>" ++
    str "<style>" ++
    str "body \x7b font-family: Arial, sans-serif; margin: 20px; \x7d" ++
    str "h1 \x7b color: #333; \x7d" ++
    str "table \x7b border-collapse: collapse; width: 100%; max-width: 800px; \x7d" ++
    str "th, td \x7b text-align: left; padding: 8px; border-bottom: 1px solid #ddd; \x7d" ++
    str "th \x7b background-color: #4CAF50; color: white; \x7d" ++
    str "a \x7b color: #0066cc; text-decoration: none; \x7d" ++
    str "a:hover \x7b text-decoration: underline; \x7d" ++
    str "</style></head><body>" ++
    str "<h1>Index of " ++ uri ++ str "</h1>" ++
    str "<table><tr><th>Name</th><th>Type</th></tr>"
  let parentRow :=
    if uri ≠ str "/" then str "<tr><td><a href=\"..\">..</a></td><td>Directory</td></tr>"
    else []
  let rows :=
    (fs.entries dir_path).foldl
      (fun acc name =>
        if name ≠ str "." ∧ name ≠ str ".." then
          let full_path := combinePaths dir_path name
          let is_dir := isDirectoryF fs full_path
          let link := if is_dir then name ++ ['/'] else name
          acc ++ str "<tr><td><a href=\"" ++ link ++ str "\">" ++ name ++
            (if is_dir then str "/" else []) ++ str "</a></td><td>" ++
            (if is_dir then str "Directory" else str "File") ++ str "</td></tr>"
        else acc) []
  headPart ++ parentRow ++ rows ++ str "</table></body></html>"

/-- Model of `StaticFileHandler::handleRequest` over the filesystem oracle.
The handler's constructor arguments (root, directory-listing flag, default
file) are passed explicitly. -/
def handleRequestStatic (fs : Fs) (root_directory : Str)
    (directory_listing_enabled : Bool) (default_file : Str)
    (request : HttpRequest) : HttpResponse :=
  let uri := request.uri
  if ¬ isPathSafe uri then HttpResponse.badRequest (str "Invalid path")
  else
    let file_path := combinePaths root_directory uri
    if request.method = .DELETE then
      if ¬ fileExistsF fs file_path then
        HttpResponse.notFound fs.readOk (str "The requested resource was not found")
      else if uri = str "/" ∨ uri = [] then
        HttpResponse.methodNotAllowed (str "Cannot delete index file")
      else
        let filename :=
          match findLastOf file_path ['/'] with
          | some last_slash => file_path.drop (last_slash + 1)
          | none => file_path
        if filename = default_file ∨ filename = str "index.html" ∨ filename = str "index.htm" then
          HttpResponse.methodNotAllowed (str "Cannot delete index files")
        else if fs.removeOk file_path then
          HttpResponse.ok
            (str "<html><body><h1>200 OK</h1><p>File deleted successfully</p></body></html>")
            (str "text/html")
        else HttpResponse.methodNotAllowed (str "Permission denied: Cannot delete file")
    else if request.method ≠ .GET ∧ request.method ≠ .HEAD then
      HttpResponse.methodNotAllowed (str "Only GET and HEAD are allowed for static files")
    else if ¬ fileExistsF fs file_path then
      HttpResponse.notFound fs.readOk (str "The requested resource was not found")
    else if isDirectoryF fs file_path then
      let index_path := combinePaths file_path default_file
      if fileExistsF fs index_path ∧ ¬ isDirectoryF fs index_path ∧
          (fs.readOk index_path).isSome then
        HttpResponse.ok ((fs.readOk index_path).getD []) (getMimeType index_path)
      else if directory_listing_enabled then
        HttpResponse.ok (generateDirectoryListing fs file_path uri) (str "text/html")
      else HttpResponse.notFound fs.readOk (str "Directory listing is disabled")
    else
      match fs.readOk file_path with
      | none => HttpResponse.internalServerError fs.readOk (str "Failed to read file")
      | some content => HttpResponse.ok content (getMimeType file_path)

/-! ## Upload filename sanitizer (UploadHandler.cpp). -/

/-- ASCII model of `std::isalnum` in the C locale. -/
def isAlnumC (c : Char) : Bool :=
  ('A' ≤ c ∧ c ≤ 'Z') ∨ ('a' ≤ c ∧ c ≤ 'z') ∨ ('0' ≤ c ∧ c ≤ '9')

/-- Model of `UploadHandler::sanitizeFilename`. -/
def sanitizeFilename (filename : Str) : Str :=
  let safe_name :=
    match findLastOf filename ['/', '\\'] with
    | some last_slash => filename.drop (last_slash + 1)
    | none => filename
  let result :=
    safe_name.map (fun c => if isAlnumC c || c = '.' || c = '_' || c = '-' then c else '_')
  if result = [] ∨ result = str "." ∨ result = str ".." then str "uploaded_file"
  else result

/-- The sanitization pipeline exactly as the specification words it: drop
everything up to and including the last path separator, replace every
character outside [A-Za-z0-9._-] with an underscore, and substitute the
fixed placeholder when the result is empty, "." or "..". -/
def sanitizeSpecPipeline (filename : Str) : Str :=
  let stem :=
    match findLastOf filename ['/', '\\'] with
    | some i => filename.drop (i + 1)
    | none => filename
  let replaced := stem.map (fun c =>
    if ('A' ≤ c ∧ c ≤ 'Z') ∨ ('a' ≤ c ∧ c ≤ 'z') ∨ ('0' ≤ c ∧ c ≤ '9') ∨
        c = '.' ∨ c = '_' ∨ c = '-' then c else '_')
  if replaced = [] ∨ replaced = str "." ∨ replaced = str ".." then str "uploaded_file"
  else replaced

/-! ## Configuration and routing (Config.cpp, Server.cpp `_buildResponse`). -/

structure LocationConfig where
  path : Str
  root : Str
  index : Str
  autoindex : Bool
  methods : List Str
  upload_path : Str
  cgi_extensions : List (Str × Str)
deriving DecidableEq

structure ServerConfig where
  port : Nat
  host : Str
  server_name : Str
  max_body_size : Nat
  locations : List LocationConfig
  error_pages : List (Nat × Str)
deriving DecidableEq

/-- Model of `Config::findLocation`: scan the location list keeping the
longest strict improvement among entries whose path occurs at position 0 of
the URI (`uri.find(loc.path) == 0`). -/
def findLocation (uri : Str) (server : ServerConfig) : Option LocationConfig :=
  (server.locations.foldl
    (fun (acc : Option LocationConfig × Nat) loc =>
      if strFind uri loc.path 0 = some 0 then
        if loc.path.length > acc.2 then (some loc, loc.path.length) else acc
      else acc)
    (none, 0)).1

/-- The default location built by `Config::parse`. -/
def defaultRootLocation : LocationConfig :=
  { path := str "/", root := str "./www", index := str "index.html",
    autoindex := false, methods := [str "GET", str "POST", str "DELETE"],
    upload_path := [], cgi_extensions := [] }

/-- The built-in default configuration built by `Config::parse`. -/
def defaultServerConfig : ServerConfig :=
  { port := 8080, host := str "0.0.0.0", server_name := str "webserv",
    max_body_size := 1048576, locations := [defaultRootLocation],
    error_pages := [(404, str "./www/404.html"), (500, str "./www/500.html")] }

/-- The dispatched handlers of `Server::_buildResponse`, supplied as oracles:
`execCgi script_path interpreter request location`, the static handler
`(root, autoindex, index, request)`, and the upload handler
`(upload_path, max_body_size, request)`.  This lets the routing theorems
quantify over every possible handler behavior. -/
structure Handlers where
  execCgi : Str → Str → HttpRequest → LocationConfig → HttpResponse
  staticH : Str → Bool → Str → HttpRequest → HttpResponse
  uploadH : Str → Nat → HttpRequest → HttpResponse

/-- Model of `Server::_buildResponse`; `fsRead` is the error-page filesystem
used by `HttpResponse::notFound`. -/
def buildResponse (fsRead : Str → Option Str) (h : Handlers)
    (server_config : ServerConfig) (request : HttpRequest) : HttpResponse :=
  match findLocation request.uri server_config with
  | none => HttpResponse.notFound fsRead (str "Location not configured")
  | some location =>
    let method_str := methodString request.method
    let method_allowed := location.methods.any (fun m => m = method_str)
    if ¬ method_allowed then
      HttpResponse.methodNotAllowed (str "Method not allowed for this location")
    else
      let cgiResult : Option HttpResponse :=
        if location.cgi_extensions ≠ [] then
          let uri := request.uri
          let path_part :=
            match strFind uri (str "?") 0 with
            | some qpos => uri.take qpos
            | none => uri
          match findLastOf path_part ['.'] with
          | some dot_pos =>
            let ext := path_part.drop dot_pos
            match mapFind ext location.cgi_extensions with
            | some interpreter =>
              some (h.execCgi (location.root ++ ['/'] ++ path_part) interpreter
                request location)
            | none => none
          | none => none
        else none
      match cgiResult with
      | some resp => resp
      | none =>
        if request.method = .GET ∨ request.method = .DELETE then
          h.staticH location.root location.autoindex location.index request
        else if request.method = .HEAD then
          h.staticH location.root location.autoindex location.index request
        else if request.method = .POST then
          let upload_path :=
            if location.upload_path = [] then str "./uploads" else location.upload_path
          h.uploadH upload_path server_config.max_body_size request
        else if request.method = .PUT then
          HttpResponse.ok
            (str "<html><body><h1>201 Created</h1><p>Resource created/updated via PUT</p></body></html>")
            (str "text/html")
        else HttpResponse.badRequest (str "Method not implemented")

/-! ## Concrete over-8192-byte inputs used to probe the head-size cap -/

/-- A request whose request line alone is 8116 bytes, followed by 200 header
bytes with no line terminator: the total buffer (8316 bytes) exceeds the cap
although only 200 bytes are unconsumed. -/
def c5input : Str :=
  str "GET /" ++ (List.replicate 8100 'a' ++ (str " HTTP/1.1\r\n" ++ List.replicate 200 'x'))

/-- A complete, well-formed GET request whose request line is 8218 bytes
long (8216-byte request line plus the empty header line). -/
def c3full : Str :=
  str "GET /" ++ (List.replicate 8200 'a' ++ (str " HTTP/1.1\r\n" ++ str "\r\n"))

/-- `c3full` split at byte 8193: the first chunk alone already exceeds the
8192-byte accumulation cap before any line terminator arrives. -/
def c3chunks : List Str := [c3full.take 8193, c3full.drop 8193]

/-! ## Helper lemmas -/

theorem status_setHeaderResp (r : HttpResponse) (k v : Str) :
    (setHeaderResp r k v).status_code = r.status_code := rfl

theorem status_setBodyResp (r : HttpResponse) (content : Str) :
    (setBodyResp r content).status_code = r.status_code := rfl

theorem status_setContentTypeResp (r : HttpResponse) (m : Str) :
    (setContentTypeResp r m).status_code = r.status_code := rfl

theorem status_newResponse (code : Nat) : (newResponse code).status_code = code := rfl

theorem status_ok (c ct : Str) : (HttpResponse.ok c ct).status_code = 200 := rfl

theorem status_badRequest (m : Str) : (HttpResponse.badRequest m).status_code = 400 := rfl

theorem status_notFound (fsRead : Str → Option Str) (m : Str) :
    (HttpResponse.notFound fsRead m).status_code = 404 := by
  unfold HttpResponse.notFound
  simp only [status_setContentTypeResp, status_setBodyResp, status_newResponse]

theorem status_methodNotAllowed (m : Str) :
    (HttpResponse.methodNotAllowed m).status_code = 405 := rfl

theorem status_internalServerError (fsRead : Str → Option Str) (m : Str) :
    (HttpResponse.internalServerError fsRead m).status_code = 500 := by
  unfold HttpResponse.internalServerError
  simp only [status_setContentTypeResp, status_setBodyResp, status_newResponse]

theorem status_notImplemented (m : Str) :
    (HttpResponse.notImplemented m).status_code = 501 := rfl

theorem status_payloadTooLarge (m : Str) :
    (HttpResponse.payloadTooLarge m).status_code = 413 := rfl

/-! ## Claim C1: the CGI gateway parses the Status header but builds the
response with `HttpResponse::ok`, so the outgoing status line is 200. -/

/-- C1: for the CGI output `Status: 404\r\n\r\nbody` the gateway parses the
status code 404, yet the HTTP response it returns carries status 200 — the
parsed CGI status is computed but never applied to the outgoing response.
This exhibits the divergence between the specified behavior (apply the
parsed status) and the code (always `HttpResponse::ok`). -/
theorem c1_cgi_status_never_applied :
    cgiParsedStatus (str "Status: 404\r\n\r\nbody") = 404 ∧
    (cgiTranslate (fun _ => none) (str "Status: 404\r\n\r\nbody")).status_code = 200 ∧
    (cgiTranslate (fun _ => some (str "page")) (str "Status: 404\r\n\r\nbody")).status_code = 200 := by
  decide

/-! ## Claim C2: the synthesized parse-error response. -/

/-- C2 counterexample: a request line `GET / HTTP/2.0` drives the parser
into the terminal error state with code 505, but the response the
multiplexer synthesizes for error 505 carries status 501, not 505 — so the
synthesized response does not always carry the parser's error code. -/
theorem c2_counterexample_505_yields_501 :
    (parse freshReq (str "GET / HTTP/2.0\r\n")).1.state = ParseState.ERROR ∧
    (parse freshReq (str "GET / HTTP/2.0\r\n")).1.error_code = 505 ∧
    (parseErrorResponse
      (parse freshReq (str "GET / HTTP/2.0\r\n")).1.error_code).status_code = 501 := by
  decide

/-- C2 (amended): for a terminal parse error e in {400, 405, 431, 501, 505},
the immediately synthesized response carries status 405 when e = 405, status
501 (Not Implemented, with the message "HTTP Version Not Supported") when
e = 505, and status 400 for every other parse error (400, 431, 501). -/
theorem c2_parse_error_response_codes (e : Nat)
    (he : e = 400 ∨ e = 405 ∨ e = 431 ∨ e = 501 ∨ e = 505) :
    (parseErrorResponse e).status_code =
      if e = 405 then 405 else if e = 505 then 501 else 400 := by
  rcases he with h | h | h | h | h <;> subst h <;> decide

/-- Witness for `c2_parse_error_response_codes` at the concrete error 431. -/
theorem c2_parse_error_response_codes_witness :
    ((431 : Nat) = 400 ∨ (431 : Nat) = 405 ∨ (431 : Nat) = 431 ∨ (431 : Nat) = 501 ∨
      (431 : Nat) = 505) ∧
    (parseErrorResponse 431).status_code =
      if (431 : Nat) = 405 then 405 else if (431 : Nat) = 505 then 501 else 400 :=
  ⟨by decide, c2_parse_error_response_codes 431 (by decide)⟩

/-! ## Claim C9: terminal states are absorbing until reset. -/

/-- C9: once the parser state is COMPLETE or ERROR, every further `parse`
call returns the object unchanged (with result true iff the state is
COMPLETE), and an explicit reset restores the freshly-constructed state. -/
theorem c9_terminal_states_absorbing (r : HttpRequest)
    (h : r.state = ParseState.COMPLETE ∨ r.state = ParseState.ERROR) :
    (∀ data, parse r data = (r, decide (r.state = ParseState.COMPLETE))) ∧
    resetReq r = freshReq := by
  refine ⟨fun data => ?_, rfl⟩
  unfold parse
  rw [if_pos h]

/-- Witness for `c9_terminal_states_absorbing`: a concrete request driven
into the ERROR state ignores further data until reset. -/
theorem c9_terminal_states_absorbing_witness :
    ((parse freshReq (str "PATCH /x HTTP/1.1\r\n")).1.state = ParseState.COMPLETE ∨
      (parse freshReq (str "PATCH /x HTTP/1.1\r\n")).1.state = ParseState.ERROR) ∧
    parse (parse freshReq (str "PATCH /x HTTP/1.1\r\n")).1 (str "more") =
      ((parse freshReq (str "PATCH /x HTTP/1.1\r\n")).1,
        decide ((parse freshReq (str "PATCH /x HTTP/1.1\r\n")).1.state = ParseState.COMPLETE)) ∧
    resetReq (parse freshReq (str "PATCH /x HTTP/1.1\r\n")).1 = freshReq :=
  ⟨by decide,
    (c9_terminal_states_absorbing _ (by decide)).1 (str "more"),
    (c9_terminal_states_absorbing _ (by decide)).2⟩

/-! ## Claim C7: filename sanitization. -/

theorem sanitize_char_cond_iff (c : Char) :
    (isAlnumC c || c = '.' || c = '_' || c = '-') = true ↔
    (('A' ≤ c ∧ c ≤ 'Z') ∨ ('a' ≤ c ∧ c ≤ 'z') ∨ ('0' ≤ c ∧ c ≤ '9') ∨
      c = '.' ∨ c = '_' ∨ c = '-') := by
  simp only [isAlnumC, Bool.or_eq_true, decide_eq_true_eq]
  tauto

theorem sanitize_char_eq (c : Char) :
    (if isAlnumC c || c = '.' || c = '_' || c = '-' then c else '_') =
    (if ('A' ≤ c ∧ c ≤ 'Z') ∨ ('a' ≤ c ∧ c ≤ 'z') ∨ ('0' ≤ c ∧ c ≤ '9') ∨
        c = '.' ∨ c = '_' ∨ c = '-' then c else '_') := by
  by_cases h : (('A' ≤ c ∧ c ≤ 'Z') ∨ ('a' ≤ c ∧ c ≤ 'z') ∨ ('0' ≤ c ∧ c ≤ '9') ∨
      c = '.' ∨ c = '_' ∨ c = '-')
  · rw [if_pos h, if_pos ((sanitize_char_cond_iff c).mpr h)]
  · rw [if_neg h, if_neg (fun hb => h ((sanitize_char_cond_iff c).mp hb))]

theorem sanitize_char_no_sep (c : Char) :
    (if isAlnumC c || c = '.' || c = '_' || c = '-' then c else '_') ≠ '/' ∧
    (if isAlnumC c || c = '.' || c = '_' || c = '-' then c else '_') ≠ '\\' := by
  by_cases h : (isAlnumC c || c = '.' || c = '_' || c = '-') = true
  · rw [if_pos h]
    constructor
    · intro hc; subst hc; revert h; decide
    · intro hc; subst hc; revert h; decide
  · rw [if_neg h]
    exact ⟨by decide, by decide⟩

/-- C7: the sanitized upload filename equals the spec's pipeline (drop
everything up to and including the last path separator, replace every
character outside [A-Za-z0-9._-] with an underscore, substitute the fixed
placeholder when the result is empty, "." or ".."), and is consequently
non-empty, not "." or "..", and free of path separators. -/
theorem c7_sanitize_filename (filename : Str) :
    sanitizeFilename filename = sanitizeSpecPipeline filename ∧
    sanitizeFilename filename ≠ [] ∧
    sanitizeFilename filename ≠ str "." ∧
    sanitizeFilename filename ≠ str ".." ∧
    ∀ c ∈ sanitizeFilename filename, c ≠ '/' ∧ c ≠ '\\' := by
  have hmapeq :
      (fun c => if isAlnumC c || c = '.' || c = '_' || c = '-' then c else '_') =
      (fun c => if ('A' ≤ c ∧ c ≤ 'Z') ∨ ('a' ≤ c ∧ c ≤ 'z') ∨ ('0' ≤ c ∧ c ≤ '9') ∨
          c = '.' ∨ c = '_' ∨ c = '-' then c else '_') := funext sanitize_char_eq
  constructor
  · unfold sanitizeFilename sanitizeSpecPipeline
    rw [hmapeq]
  · unfold sanitizeFilename
    set stem :=
      match findLastOf filename ['/', '\\'] with
      | some last_slash => filename.drop (last_slash + 1)
      | none => filename with hstem
    set res := stem.map
      (fun c => if isAlnumC c || c = '.' || c = '_' || c = '-' then c else '_') with hres
    by_cases h : res = [] ∨ res = str "." ∨ res = str ".."
    · rw [if_pos h]
      exact ⟨by decide, by decide, by decide, by decide⟩
    · rw [if_neg h]
      push_neg at h
      refine ⟨h.1, h.2.1, h.2.2, ?_⟩
      intro c hc
      rcases List.mem_map.mp hc with ⟨x, _, hx⟩
      rw [← hx]
      exact sanitize_char_no_sep x

/-! ## Claim C6: static resolver path-traversal rejection and 404. -/

/-- C6: the static resolver answers 400 whenever the URI contains the
substring "..", regardless of the filesystem (in particular regardless of
whether the target exists); otherwise, for GET or HEAD, a path that does not
exist under the root yields 404. -/
theorem c6_static_traversal_and_missing (fs : Fs) (root def_file : Str)
    (listing : Bool) (req : HttpRequest) :
    (strFind req.uri (str "..") 0 ≠ none →
      (handleRequestStatic fs root listing def_file req).status_code = 400) ∧
    (strFind req.uri (str "..") 0 = none →
      (req.method = HttpMethod.GET ∨ req.method = HttpMethod.HEAD) →
      fileExistsF fs (combinePaths root req.uri) = false →
      (handleRequestStatic fs root listing def_file req).status_code = 404) := by
  constructor
  · intro h
    have hps : isPathSafe req.uri = false := by
      unfold isPathSafe
      exact decide_eq_false h
    unfold handleRequestStatic
    rw [if_pos (by rw [hps]; simp)]
    exact status_badRequest _
  · intro h hm hex
    have hps : isPathSafe req.uri = true := by
      unfold isPathSafe
      exact decide_eq_true h
    have hnd : req.method ≠ HttpMethod.DELETE := by
      rcases hm with hg | hh
      · rw [hg]; intro hc; cases hc
      · rw [hh]; intro hc; cases hc
    unfold handleRequestStatic
    rw [if_neg (by rw [hps]; simp)]
    rw [if_neg hnd]
    rw [if_neg (by rcases hm with hg | hh
                   · rw [hg]; intro hc; exact hc.1 rfl
                   · rw [hh]; intro hc; exact hc.2 rfl)]
    rw [if_pos (by rw [hex]; simp)]
    exact status_notFound _ _

/-- Witness for `c6_static_traversal_and_missing`: a filesystem on which
nothing exists, a traversal URI getting 400, and a missing file getting
404. -/
theorem c6_static_traversal_and_missing_witness :
    (strFind (str "/../etc") (str "..") 0 ≠ none ∧
      (handleRequestStatic
        ⟨fun _ => false, fun _ => false, fun _ => none, fun _ => false, fun _ => []⟩
        (str "./www") false (str "index.html")
        { freshReq with uri := str "/../etc", method := HttpMethod.GET }).status_code = 400) ∧
    (strFind (str "/missing.html") (str "..") 0 = none ∧
      (handleRequestStatic
        ⟨fun _ => false, fun _ => false, fun _ => none, fun _ => false, fun _ => []⟩
        (str "./www") false (str "index.html")
        { freshReq with uri := str "/missing.html", method := HttpMethod.GET }).status_code = 404) := by
  constructor
  · refine ⟨by decide, ?_⟩
    exact (c6_static_traversal_and_missing _ _ _ _ _).1 (by decide)
  · refine ⟨by decide, ?_⟩
    exact (c6_static_traversal_and_missing _ _ _ _ _).2 (by decide) (Or.inl rfl) rfl

/-! ## Claim C4: the request-line state transition. -/

theorem splitWsAux_mem_ne_nil :
    ∀ (s cur : Str), ∀ t ∈ splitWsAux s cur, t ≠ [] := by
  intro s
  induction s with
  | nil =>
    intro cur t ht
    unfold splitWsAux at ht
    by_cases hc : cur = []
    · rw [if_pos hc] at ht
      cases ht
    · rw [if_neg hc] at ht
      rcases List.mem_singleton.mp ht with h
      rw [h]
      simp [hc]
  | cons c rest ih =>
    intro cur t ht
    unfold splitWsAux at ht
    by_cases hws : isStreamWs c = true
    · rw [if_pos hws] at ht
      by_cases hc : cur = []
      · rw [if_pos hc] at ht
        exact ih [] t ht
      · rw [if_neg hc] at ht
        rcases List.mem_cons.mp ht with h | h
        · rw [h]; simp [hc]
        · exact ih [] t h
    · rw [if_neg hws] at ht
      exact ih (c :: cur) t ht

theorem splitWs_mem_ne_nil (s : Str) : ∀ t ∈ splitWs s, t ≠ [] :=
  splitWsAux_mem_ne_nil s []


theorem parseQueryString_none (r : HttpRequest)
    (h : strFind r.uri (str "?") 0 = none) : parseQueryString r = r := by
  unfold parseQueryString
  rw [h]

theorem parseQueryString_some (r : HttpRequest) (p : Nat)
    (h : strFind r.uri (str "?") 0 = some p) :
    parseQueryString r =
      { r with query_string := r.uri.drop (p + 1), uri := r.uri.take p } := by
  unfold parseQueryString
  rw [h]

/-- C4: the request line transition.  If the first whitespace token is not a
known method the parser records error 405 and enters ERROR; otherwise a
missing URI or version token yields error 400; otherwise a version other
than HTTP/1.0 / HTTP/1.1 yields error 505; otherwise the query string is
split off the URI at the first `?` and the state advances to HEADERS. -/
theorem c4_request_line_transition (r : HttpRequest) (line : Str)
    (hu : r.uri = []) (hv : r.http_version = []) :
    (stringToMethod ((splitWs line).headD []) = HttpMethod.UNKNOWN →
      (parseRequestLine r line).error_code = 405 ∧
      (parseRequestLine r line).state = ParseState.ERROR) ∧
    (stringToMethod ((splitWs line).headD []) ≠ HttpMethod.UNKNOWN →
      (splitWs line).length < 3 →
      (parseRequestLine r line).error_code = 400 ∧
      (parseRequestLine r line).state = ParseState.ERROR) ∧
    (stringToMethod ((splitWs line).headD []) ≠ HttpMethod.UNKNOWN →
      3 ≤ (splitWs line).length →
      (splitWs line).getD 2 [] ≠ str "HTTP/1.1" →
      (splitWs line).getD 2 [] ≠ str "HTTP/1.0" →
      (parseRequestLine r line).error_code = 505 ∧
      (parseRequestLine r line).state = ParseState.ERROR) ∧
    (stringToMethod ((splitWs line).headD []) ≠ HttpMethod.UNKNOWN →
      3 ≤ (splitWs line).length →
      ((splitWs line).getD 2 [] = str "HTTP/1.1" ∨
        (splitWs line).getD 2 [] = str "HTTP/1.0") →
      (parseRequestLine r line).state = ParseState.HEADERS ∧
      (parseRequestLine r line).method = stringToMethod ((splitWs line).headD []) ∧
      (parseRequestLine r line).http_version = (splitWs line).getD 2 [] ∧
      (∀ p, strFind ((splitWs line).getD 1 []) (str "?") 0 = some p →
        (parseRequestLine r line).uri = ((splitWs line).getD 1 []).take p ∧
        (parseRequestLine r line).query_string = ((splitWs line).getD 1 []).drop (p + 1)) ∧
      (strFind ((splitWs line).getD 1 []) (str "?") 0 = none →
        (parseRequestLine r line).uri = (splitWs line).getD 1 [] ∧
        (parseRequestLine r line).query_string = r.query_string)) := by
  have htok : ∀ x ∈ splitWs line, x ≠ [] := splitWs_mem_ne_nil line
  set t := splitWs line with ht
  set m := stringToMethod (t.headD []) with hm0
  set r1 : HttpRequest :=
    { r with uri := t.getD 1 r.uri, http_version := t.getD 2 r.http_version, method := m }
    with hr1
  have hruri : r1.uri = t.getD 1 r.uri := rfl
  have hrver : r1.http_version = t.getD 2 r.http_version := rfl
  have hunf : parseRequestLine r line =
      (if m = .UNKNOWN then { r1 with error_code := 405, state := .ERROR }
      else if r1.uri = [] ∨ r1.http_version = [] then
        { r1 with error_code := 400, state := .ERROR }
      else if r1.http_version ≠ str "HTTP/1.1" ∧ r1.http_version ≠ str "HTTP/1.0" then
        { r1 with error_code := 505, state := .ERROR }
      else { (parseQueryString r1) with state := .HEADERS }) := rfl
  refine ⟨?_, ?_, ?_, ?_⟩
  · intro hm
    rw [hunf, if_pos hm]
    exact ⟨rfl, rfl⟩
  · intro hm hlen
    have hcond : r1.uri = [] ∨ r1.http_version = [] := by
      rw [hruri, hrver, hu, hv]
      by_cases h2 : t.length ≤ 1
      · exact Or.inl (List.getD_eq_default _ _ h2)
      · exact Or.inr (List.getD_eq_default _ _ (by omega))
    rw [hunf, if_neg hm, if_pos hcond]
    exact ⟨rfl, rfl⟩
  · intro hm hlen h11 h10
    have hcond : ¬(r1.uri = [] ∨ r1.http_version = []) := by
      rw [hruri, hrver, hu, hv]
      intro hor
      rcases hor with h | h
      · have h1 : 1 < t.length := by omega
        rw [List.getD_eq_getElem _ _ h1] at h
        exact htok _ (List.getElem_mem h1) h
      · have h2 : 2 < t.length := by omega
        rw [List.getD_eq_getElem _ _ h2] at h
        exact htok _ (List.getElem_mem h2) h
    have hcond3 : r1.http_version ≠ str "HTTP/1.1" ∧ r1.http_version ≠ str "HTTP/1.0" := by
      rw [hrver, hv]
      exact ⟨h11, h10⟩
    rw [hunf, if_neg hm, if_neg hcond, if_pos hcond3]
    exact ⟨rfl, rfl⟩
  · intro hm hlen hver
    have hcond : ¬(r1.uri = [] ∨ r1.http_version = []) := by
      rw [hruri, hrver, hu, hv]
      intro hor
      rcases hor with h | h
      · have h1 : 1 < t.length := by omega
        rw [List.getD_eq_getElem _ _ h1] at h
        exact htok _ (List.getElem_mem h1) h
      · have h2 : 2 < t.length := by omega
        rw [List.getD_eq_getElem _ _ h2] at h
        exact htok _ (List.getElem_mem h2) h
    have hcond3 : ¬(r1.http_version ≠ str "HTTP/1.1" ∧ r1.http_version ≠ str "HTTP/1.0") := by
      rw [hrver, hv]
      intro hc
      rcases hver with h | h
      · exact hc.1 h
      · exact hc.2 h
    rw [hunf, if_neg hm, if_neg hcond, if_neg hcond3]
    have huq : r1.uri = t.getD 1 [] := by rw [hruri, hu]
    rcases Option.eq_none_or_eq_some (strFind (t.getD 1 []) (str "?") 0) with hq | ⟨p, hq⟩
    · have hqq : strFind r1.uri (str "?") 0 = none := by rw [huq]; exact hq
      rw [parseQueryString_none r1 hqq]
      refine ⟨rfl, rfl, by rw [hrver, hv], ?_, ?_⟩
      · intro p hp
        rw [hq] at hp
        cases hp
      · intro _
        exact ⟨by rw [hruri, hu], rfl⟩
    · have hqq : strFind r1.uri (str "?") 0 = some p := by rw [huq]; exact hq
      rw [parseQueryString_some r1 p hqq]
      refine ⟨rfl, rfl, by rw [hrver, hv], ?_, ?_⟩
      · intro p' hp'
        rw [hq] at hp'
        cases hp'
        dsimp only
        rw [hu]
        exact ⟨rfl, rfl⟩
      · intro hn
        rw [hn] at hq
        cases hq

/-- Witness for `c4_request_line_transition` on the concrete request line
`GET /a?x=1 HTTP/1.1`. -/
theorem c4_request_line_transition_witness :
    stringToMethod ((splitWs (str "GET /a?x=1 HTTP/1.1")).headD []) ≠ HttpMethod.UNKNOWN ∧
    3 ≤ (splitWs (str "GET /a?x=1 HTTP/1.1")).length ∧
    (parseRequestLine freshReq (str "GET /a?x=1 HTTP/1.1")).state = ParseState.HEADERS := by
  refine ⟨by decide, by decide, ?_⟩
  exact ((c4_request_line_transition freshReq (str "GET /a?x=1 HTTP/1.1") rfl rfl).2.2.2
    (by decide) (by decide) (by decide)).1

/-! ## Claim C5: the 8 KB head cap. -/

theorem parse_nonterminal (r : HttpRequest) (data : Str)
    (h1 : r.state ≠ ParseState.COMPLETE) (h2 : r.state ≠ ParseState.ERROR) :
    parse r data = runLoop { r with raw_data := r.raw_data ++ data } := by
  unfold parse
  rw [if_neg (by intro h; rcases h with h | h; exact h1 h; exact h2 h)]

theorem parseLoop_step (fuel : Nat) (r : HttpRequest) :
    parseLoop (fuel + 1) r =
      (if r.state = ParseState.COMPLETE then (r, true)
      else if r.state = ParseState.ERROR then (r, false)
      else if r.state = ParseState.BODY then
        if isChunkedReq r then ({ r with error_code := 501, state := .ERROR }, false)
        else if r.content_length ≤ r.raw_data.length - r.bytes_parsed then
          parseLoop fuel
            { r with
              body := substrL r.raw_data r.bytes_parsed r.content_length
              bytes_parsed := r.bytes_parsed + r.content_length
              state := .COMPLETE }
        else (r, false)
      else
        match strFind r.raw_data (str "\r\n") r.bytes_parsed with
        | none =>
          if r.raw_data.length > 8192 then
            ({ r with error_code := 431, state := .ERROR }, false)
          else (r, false)
        | some line_end =>
          let line := substrL r.raw_data r.bytes_parsed (line_end - r.bytes_parsed)
          let r1 := { r with bytes_parsed := line_end + 2 }
          let r2 :=
            if r.state = .REQUEST_LINE then parseRequestLine r1 line
            else if line = [] then finishHeaders r1
            else parseHeader r1 line
          parseLoop fuel r2) := rfl

/-- C5 (amended): when a parse call ends with the request line or headers
still incomplete (no `\r\n` after the consumed position), the 8192-byte cap
is applied to the TOTAL accumulated buffer (consumed head bytes included):
if the whole buffer exceeds 8192 bytes the request enters ERROR with code
431, and otherwise the call reports "needs more data" with no error. -/
theorem c5_head_cap_total_buffer (r : HttpRequest) (data : Str)
    (hstate : r.state = ParseState.REQUEST_LINE ∨ r.state = ParseState.HEADERS)
    (hfind : strFind (r.raw_data ++ data) (str "\r\n") r.bytes_parsed = none) :
    parse r data =
      if (r.raw_data ++ data).length > 8192 then
        ({ r with
            raw_data := r.raw_data ++ data
            error_code := 431
            state := ParseState.ERROR }, false)
      else ({ r with raw_data := r.raw_data ++ data }, false) := by
  have h1 : r.state ≠ ParseState.COMPLETE := by
    rcases hstate with h | h <;> rw [h] <;> decide
  have h2 : r.state ≠ ParseState.ERROR := by
    rcases hstate with h | h <;> rw [h] <;> decide
  have h3 : ({ r with raw_data := r.raw_data ++ data } : HttpRequest).state ≠
      ParseState.BODY := by
    show r.state ≠ ParseState.BODY
    rcases hstate with h | h <;> rw [h] <;> decide
  rw [parse_nonterminal r data h1 h2]
  unfold runLoop
  rw [show ({ r with raw_data := r.raw_data ++ data } : HttpRequest).raw_data.length + 2 =
      (({ r with raw_data := r.raw_data ++ data } : HttpRequest).raw_data.length + 1) + 1
    from rfl]
  rw [parseLoop_step]
  rw [if_neg (show ({ r with raw_data := r.raw_data ++ data } : HttpRequest).state ≠
    ParseState.COMPLETE from h1)]
  rw [if_neg (show ({ r with raw_data := r.raw_data ++ data } : HttpRequest).state ≠
    ParseState.ERROR from h2)]
  rw [if_neg h3]
  dsimp only
  rw [hfind]

/-- Witness for `c5_head_cap_total_buffer`: a fresh request fed three bytes
with no terminator stays error-free below the cap. -/
theorem c5_head_cap_total_buffer_witness :
    (freshReq.state = ParseState.REQUEST_LINE ∨ freshReq.state = ParseState.HEADERS) ∧
    strFind (freshReq.raw_data ++ str "GET") (str "\r\n") freshReq.bytes_parsed = none ∧
    parse freshReq (str "GET") =
      (if (freshReq.raw_data ++ str "GET").length > 8192 then
        ({ freshReq with
            raw_data := freshReq.raw_data ++ str "GET"
            error_code := 431
            state := ParseState.ERROR }, false)
      else ({ freshReq with raw_data := freshReq.raw_data ++ str "GET" }, false)) :=
  ⟨by decide, by decide,
    c5_head_cap_total_buffer freshReq (str "GET") (by decide) (by decide)⟩

/-! ## Claims C8 and C10: routing. -/

theorem strFindAux_ge (needle : Str) :
    ∀ (s : Str) (i j : Nat), strFindAux needle s i = some j → i ≤ j := by
  intro s
  induction s with
  | nil =>
    intro i j h
    unfold strFindAux at h
    split at h
    · cases h; exact Nat.le_refl _
    · cases h
  | cons c rest ih =>
    intro i j h
    unfold strFindAux at h
    split at h
    · cases h; exact Nat.le_refl _
    · have := ih (i + 1) j h
      omega

theorem strFind_zero_iff (hay needle : Str) :
    strFind hay needle 0 = some 0 ↔ needle.isPrefixOf hay := by
  unfold strFind
  rw [List.drop_zero]
  constructor
  · intro h
    cases hhay : hay with
    | nil =>
      rw [hhay] at h
      unfold strFindAux at h
      split at h
      · assumption
      · cases h
    | cons c rest =>
      rw [hhay] at h
      unfold strFindAux at h
      split at h
      · assumption
      · rcases Option.map_eq_some'.mp h with ⟨j, hj, _⟩
        have := strFindAux_ge needle rest 1 j hj
        omega
  · intro h
    cases hhay : hay with
    | nil =>
      unfold strFindAux
      rw [if_pos (by rw [← hhay]; exact h)]
      rfl
    | cons c rest =>
      unfold strFindAux
      rw [if_pos (by rw [← hhay]; exact h)]
      rfl

theorem findLoc_fold_no_match (uri : Str) :
    ∀ (locs : List LocationConfig) (acc : Option LocationConfig × Nat),
    (∀ l ∈ locs, ¬ (strFind uri l.path 0 = some 0)) →
    locs.foldl
      (fun (acc : Option LocationConfig × Nat) loc =>
        if strFind uri loc.path 0 = some 0 then
          if loc.path.length > acc.2 then (some loc, loc.path.length) else acc
        else acc) acc = acc := by
  intro locs
  induction locs with
  | nil => intro acc _; rfl
  | cons a rest ih =>
    intro acc h
    rw [List.foldl_cons, if_neg (h a (List.mem_cons_self a rest))]
    exact ih acc (fun l hl => h l (List.mem_cons_of_mem a hl))

theorem findLoc_fold_sound (uri : Str) :
    ∀ (locs : List LocationConfig) (acc : Option LocationConfig × Nat),
    (∀ l, acc.1 = some l → l.path.isPrefixOf uri ∧ acc.2 = l.path.length) →
    ∀ l,
    (locs.foldl
      (fun (acc : Option LocationConfig × Nat) loc =>
        if strFind uri loc.path 0 = some 0 then
          if loc.path.length > acc.2 then (some loc, loc.path.length) else acc
        else acc) acc).1 = some l →
    (l ∈ locs ∨ acc.1 = some l) ∧ l.path.isPrefixOf uri ∧
    (locs.foldl
      (fun (acc : Option LocationConfig × Nat) loc =>
        if strFind uri loc.path 0 = some 0 then
          if loc.path.length > acc.2 then (some loc, loc.path.length) else acc
        else acc) acc).2 = l.path.length := by
  intro locs
  induction locs with
  | nil =>
    intro acc hacc l h
    rw [List.foldl_nil] at h ⊢
    rcases hacc l h with ⟨h1, h2⟩
    exact ⟨Or.inr h, h1, h2⟩
  | cons a rest ih =>
    intro acc hacc l h
    rw [List.foldl_cons] at h ⊢
    by_cases hpre : strFind uri a.path 0 = some 0
    · by_cases hlen : a.path.length > acc.2
      · rw [if_pos hpre, if_pos hlen] at h ⊢
        have hacc' : ∀ l', (some a, a.path.length).1 = some l' →
            l'.path.isPrefixOf uri ∧ (some a, a.path.length).2 = l'.path.length := by
          intro l' hl'
          cases hl'
          exact ⟨(strFind_zero_iff uri a.path).mp hpre, rfl⟩
        rcases ih (some a, a.path.length) hacc' l h with ⟨hmem, hp, hl⟩
        refine ⟨?_, hp, hl⟩
        rcases hmem with hm | hm
        · exact Or.inl (List.mem_cons_of_mem a hm)
        · cases hm
          exact Or.inl (List.mem_cons_self a rest)
      · rw [if_pos hpre, if_neg hlen] at h ⊢
        rcases ih acc hacc l h with ⟨hmem, hp, hl⟩
        refine ⟨?_, hp, hl⟩
        rcases hmem with hm | hm
        · exact Or.inl (List.mem_cons_of_mem a hm)
        · exact Or.inr hm
    · rw [if_neg hpre] at h ⊢
      rcases ih acc hacc l h with ⟨hmem, hp, hl⟩
      refine ⟨?_, hp, hl⟩
      rcases hmem with hm | hm
      · exact Or.inl (List.mem_cons_of_mem a hm)
      · exact Or.inr hm

theorem findLoc_fold_dom (uri : Str) :
    ∀ (locs : List LocationConfig) (acc : Option LocationConfig × Nat),
    acc.2 ≤ (locs.foldl
      (fun (acc : Option LocationConfig × Nat) loc =>
        if strFind uri loc.path 0 = some 0 then
          if loc.path.length > acc.2 then (some loc, loc.path.length) else acc
        else acc) acc).2 ∧
    ∀ l ∈ locs, l.path.isPrefixOf uri →
      l.path.length ≤ (locs.foldl
        (fun (acc : Option LocationConfig × Nat) loc =>
          if strFind uri loc.path 0 = some 0 then
            if loc.path.length > acc.2 then (some loc, loc.path.length) else acc
          else acc) acc).2 := by
  intro locs
  induction locs with
  | nil =>
    intro acc
    refine ⟨Nat.le_refl _, ?_⟩
    intro l hl
    cases hl
  | cons a rest ih =>
    intro acc
    rw [List.foldl_cons]
    have hstep : acc.2 ≤
        (if strFind uri a.path 0 = some 0 then
          if a.path.length > acc.2 then (some a, a.path.length) else acc
        else acc).2 := by
      by_cases hpre : strFind uri a.path 0 = some 0
      · by_cases hlen : a.path.length > acc.2
        · rw [if_pos hpre, if_pos hlen]; omega
        · rw [if_pos hpre, if_neg hlen]
      · rw [if_neg hpre]
    refine ⟨Nat.le_trans hstep (ih _).1, ?_⟩
    intro l hl hp
    rcases List.mem_cons.mp hl with h | h
    · subst h
      have hpre : strFind uri l.path 0 = some 0 := (strFind_zero_iff uri l.path).mpr hp
      by_cases hlen : l.path.length > acc.2
      · have : (if strFind uri l.path 0 = some 0 then
            if l.path.length > acc.2 then (some l, l.path.length) else acc
          else acc) = (some l, l.path.length) := by rw [if_pos hpre, if_pos hlen]
        rw [this]
        exact (ih (some l, l.path.length)).1
      · have hle : l.path.length ≤ acc.2 := by omega
        exact Nat.le_trans hle (Nat.le_trans hstep (ih _).1)
    · exact (ih _).2 l h hp

theorem buildResponse_no_location (fsRead : Str → Option Str) (h : Handlers)
    (sc : ServerConfig) (req : HttpRequest)
    (hfl : findLocation req.uri sc = none) :
    buildResponse fsRead h sc req =
      HttpResponse.notFound fsRead (str "Location not configured") := by
  unfold buildResponse
  rw [hfl]

theorem methods_any_eq_false (methods : List Str) (ms : Str) (h : ms ∉ methods) :
    methods.any (fun m => m = ms) = false := by
  induction methods with
  | nil => rfl
  | cons a rest ih =>
    rw [List.any_cons]
    have ha : ¬(a = ms) := fun hc => h (hc ▸ List.mem_cons_self a rest)
    rw [decide_eq_false ha]
    rw [ih (fun hm => h (List.mem_cons_of_mem a hm))]
    rfl

theorem buildResponse_method_not_allowed (fsRead : Str → Option Str) (h : Handlers)
    (sc : ServerConfig) (req : HttpRequest) (loc : LocationConfig)
    (hfl : findLocation req.uri sc = some loc)
    (hna : methodString req.method ∉ loc.methods) :
    buildResponse fsRead h sc req =
      HttpResponse.methodNotAllowed (str "Method not allowed for this location") := by
  unfold buildResponse
  rw [hfl]
  dsimp only
  rw [if_pos ?_]
  rw [methods_any_eq_false loc.methods (methodString req.method) hna]
  exact Bool.false_ne_true

/-- C8: location matching and routing statuses.  A selected location is in
the table, its path occurs at position 0 of the URI (path prefix), and its
path length is maximal among all prefix matches; when no location's path is
a prefix of the URI the built response has status 404; when a location is
selected but its allowed-methods list does not contain the request's method
string the built response has status 405. -/
theorem c8_longest_match_and_routing (sc : ServerConfig) (req : HttpRequest) :
    (∀ loc, findLocation req.uri sc = some loc →
      loc ∈ sc.locations ∧ loc.path.isPrefixOf req.uri ∧
      ∀ l ∈ sc.locations, l.path.isPrefixOf req.uri → l.path.length ≤ loc.path.length) ∧
    ((∀ l ∈ sc.locations, ¬ l.path.isPrefixOf req.uri) →
      ∀ fsRead h, (buildResponse fsRead h sc req).status_code = 404) ∧
    (∀ loc fsRead h, findLocation req.uri sc = some loc →
      methodString req.method ∉ loc.methods →
      (buildResponse fsRead h sc req).status_code = 405) := by
  refine ⟨?_, ?_, ?_⟩
  · intro loc hfl
    unfold findLocation at hfl
    have hvac : ∀ l, ((none : Option LocationConfig), 0).1 = some l →
        l.path.isPrefixOf req.uri ∧ ((none : Option LocationConfig), 0).2 = l.path.length := by
      intro l hl
      cases hl
    rcases findLoc_fold_sound req.uri sc.locations (none, 0) hvac loc hfl with
      ⟨hmem, hp, hlen⟩
    refine ⟨?_, hp, ?_⟩
    · rcases hmem with hm | hm
      · exact hm
      · cases hm
    · intro l hl hpl
      have := (findLoc_fold_dom req.uri sc.locations (none, 0)).2 l hl hpl
      omega
  · intro hnm fsRead h
    have hfl : findLocation req.uri sc = none := by
      unfold findLocation
      rw [findLoc_fold_no_match req.uri sc.locations (none, 0) ?_]
      intro l hl hc
      exact hnm l hl ((strFind_zero_iff req.uri l.path).mp hc)
    rw [buildResponse_no_location fsRead h sc req hfl]
    exact status_notFound _ _
  · intro loc fsRead h hfl hna
    rw [buildResponse_method_not_allowed fsRead h sc req loc hfl hna]
    exact status_methodNotAllowed _

/-- Witness for `c8_longest_match_and_routing` under the default
configuration: the root location is selected for `/x.html` and is maximal,
and a PUT request (not among GET/POST/DELETE) gets 405. -/
theorem c8_longest_match_and_routing_witness :
    (findLocation (str "/x.html") defaultServerConfig = some defaultRootLocation →
      defaultRootLocation ∈ defaultServerConfig.locations ∧
      defaultRootLocation.path.isPrefixOf (str "/x.html") ∧
      ∀ l ∈ defaultServerConfig.locations, l.path.isPrefixOf (str "/x.html") →
        l.path.length ≤ defaultRootLocation.path.length) ∧
    (findLocation (str "/x.html") defaultServerConfig = some defaultRootLocation ∧
      methodString HttpMethod.PUT ∉ defaultRootLocation.methods ∧
      (buildResponse (fun _ => none)
        ⟨fun _ _ _ _ => HttpResponse.noContent, fun _ _ _ _ => HttpResponse.noContent,
          fun _ _ _ => HttpResponse.noContent⟩
        defaultServerConfig
        { freshReq with uri := str "/x.html", method := HttpMethod.PUT }).status_code = 405) := by
  constructor
  · exact (c8_longest_match_and_routing defaultServerConfig
      { freshReq with uri := str "/x.html", method := HttpMethod.PUT }).1 defaultRootLocation
  · refine ⟨by decide, by decide, ?_⟩
    exact (c8_longest_match_and_routing defaultServerConfig
      { freshReq with uri := str "/x.html", method := HttpMethod.PUT }).2.2
      defaultRootLocation (fun _ => none) _ (by decide) (by decide)

/-- C10: the allowed-methods check is an unconditional string-membership
test applied before any handler runs: a matched location whose methods list
lacks the request's method string produces exactly the 405 response (for
every possible handler implementation, so no handler is reached); an empty
methods list rejects every method; and under the built-in default
configuration every HEAD and every PUT request (to a URI the root location
matches) gets that 405 response. -/
theorem c10_method_membership_gate :
    (∀ fsRead h sc req loc, findLocation req.uri sc = some loc →
      methodString req.method ∉ loc.methods →
      buildResponse fsRead h sc req =
        HttpResponse.methodNotAllowed (str "Method not allowed for this location")) ∧
    (∀ fsRead h sc req loc, findLocation req.uri sc = some loc →
      loc.methods = [] →
      buildResponse fsRead h sc req =
        HttpResponse.methodNotAllowed (str "Method not allowed for this location")) ∧
    (∀ fsRead h req, (req.method = HttpMethod.HEAD ∨ req.method = HttpMethod.PUT) →
      (str "/").isPrefixOf req.uri →
      buildResponse fsRead h defaultServerConfig req =
        HttpResponse.methodNotAllowed (str "Method not allowed for this location")) := by
  refine ⟨?_, ?_, ?_⟩
  · intro fsRead h sc req loc hfl hna
    exact buildResponse_method_not_allowed fsRead h sc req loc hfl hna
  · intro fsRead h sc req loc hfl hemp
    refine buildResponse_method_not_allowed fsRead h sc req loc hfl ?_
    rw [hemp]
    exact List.not_mem_nil _
  · intro fsRead h req hm hp
    have hfl : findLocation req.uri defaultServerConfig = some defaultRootLocation := by
      unfold findLocation defaultServerConfig
      dsimp only
      rw [List.foldl_cons, List.foldl_nil]
      rw [if_pos ((strFind_zero_iff req.uri defaultRootLocation.path).mpr hp)]
      rw [if_pos (by decide)]
    refine buildResponse_method_not_allowed fsRead h defaultServerConfig req
      defaultRootLocation hfl ?_
    rcases hm with h1 | h1 <;> rw [h1] <;> decide

/-- Witness for `c10_method_membership_gate`: a concrete HEAD request to `/`
under the default configuration is answered by the 405 response. -/
theorem c10_method_membership_gate_witness :
    ((HttpMethod.HEAD = HttpMethod.HEAD ∨ HttpMethod.HEAD = HttpMethod.PUT) ∧
      (str "/").isPrefixOf (str "/index.html")) ∧
    buildResponse (fun _ => none)
      ⟨fun _ _ _ _ => HttpResponse.noContent, fun _ _ _ _ => HttpResponse.noContent,
        fun _ _ _ => HttpResponse.noContent⟩
      defaultServerConfig
      { freshReq with uri := str "/index.html", method := HttpMethod.HEAD } =
      HttpResponse.methodNotAllowed (str "Method not allowed for this location") :=
  ⟨⟨Or.inl rfl, by decide⟩,
    (c10_method_membership_gate).2.2 (fun _ => none) _
      { freshReq with uri := str "/index.html", method := HttpMethod.HEAD }
      (Or.inl rfl) (by decide)⟩

/-! ## Claim C3: chunk-boundary independence.  The development below proves
that the parse loop is insensitive to data appended after the bytes it
consumes, as long as it has not entered the ERROR state. -/

theorem getHeaderReq_raw (x : HttpRequest) (y : Str) (k : Str) :
    getHeaderReq { x with raw_data := y } k = getHeaderReq x k := rfl

theorem isChunkedReq_raw (x : HttpRequest) (y : Str) :
    isChunkedReq { x with raw_data := y } = isChunkedReq x := rfl

theorem parseQueryString_raw_comm (x : HttpRequest) (y : Str) :
    parseQueryString { x with raw_data := y } =
      { parseQueryString x with raw_data := y } := by
  cases x
  unfold parseQueryString
  dsimp only
  split <;> rfl

theorem parseRequestLine_raw_comm (x : HttpRequest) (y : Str) (line : Str) :
    parseRequestLine { x with raw_data := y } line =
      { parseRequestLine x line with raw_data := y } := by
  cases x
  unfold parseRequestLine parseQueryString
  dsimp only
  split
  · rfl
  · split
    · rfl
    · split
      · rfl
      · split <;> rfl

theorem parseHeader_raw_comm (x : HttpRequest) (y : Str) (line : Str) :
    parseHeader { x with raw_data := y } line =
      { parseHeader x line with raw_data := y } := by
  cases x
  unfold parseHeader
  dsimp only
  split <;> rfl

theorem isChunkedReq_upd (x : HttpRequest) (y : Str) (cl : Nat) (bd : Str) :
    isChunkedReq { x with raw_data := y, content_length := cl, boundary := bd } =
      isChunkedReq { x with content_length := cl, boundary := bd } := rfl

set_option maxHeartbeats 1600000 in
theorem finishHeaders_raw_comm (x : HttpRequest) (y : Str) :
    finishHeaders { x with raw_data := y } =
      { finishHeaders x with raw_data := y } := by
  unfold finishHeaders
  dsimp only
  rw [getHeaderReq_raw x y (str "Content-Length"), getHeaderReq_raw x y (str "Content-Type")]
  rw [isChunkedReq_upd]
  repeat' split
  all_goals rfl

theorem parseRequestLine_raw_bp (x : HttpRequest) (line : Str) :
    (parseRequestLine x line).raw_data = x.raw_data ∧
    (parseRequestLine x line).bytes_parsed = x.bytes_parsed := by
  cases x
  unfold parseRequestLine parseQueryString
  dsimp only
  repeat' split
  all_goals exact ⟨rfl, rfl⟩

theorem parseHeader_raw_bp (x : HttpRequest) (line : Str) :
    (parseHeader x line).raw_data = x.raw_data ∧
    (parseHeader x line).bytes_parsed = x.bytes_parsed := by
  cases x
  unfold parseHeader
  dsimp only
  repeat' split
  all_goals exact ⟨rfl, rfl⟩

theorem finishHeaders_raw_bp (x : HttpRequest) :
    (finishHeaders x).raw_data = x.raw_data ∧
    (finishHeaders x).bytes_parsed = x.bytes_parsed := by
  cases x
  unfold finishHeaders
  dsimp only
  repeat' split
  all_goals exact ⟨rfl, rfl⟩

theorem strFindAux_bound (needle : Str) (hne : needle ≠ []) :
    ∀ (s : Str) (i j : Nat), strFindAux needle s i = some j →
      needle.isPrefixOf (s.drop (j - i)) ∧ (j - i) + needle.length ≤ s.length := by
  intro s
  induction s with
  | nil =>
    intro i j h
    rcases needle with _ | ⟨n, nr⟩
    · exact absurd rfl hne
    · unfold strFindAux at h
      rw [if_neg (by intro hc; cases hc)] at h
      cases h
  | cons c rest ih =>
    intro i j h
    unfold strFindAux at h
    split at h
    · cases h
      rename_i hp
      rw [Nat.sub_self]
      refine ⟨hp, ?_⟩
      have := (List.isPrefixOf_iff_prefix.mp hp).length_le
      simpa using this
    · have hge := strFindAux_ge needle rest (i + 1) j h
      rcases ih (i + 1) j h with ⟨hp, hl⟩
      have hji : j - i = (j - (i + 1)) + 1 := by omega
      rw [hji]
      rw [List.drop_succ_cons]
      refine ⟨hp, ?_⟩
      simp only [List.length_cons]
      omega

theorem strFind_bound (hay needle : Str) (pos j : Nat) (hne : needle ≠ [])
    (h : strFind hay needle pos = some j) :
    pos ≤ j ∧ needle.isPrefixOf (hay.drop j) ∧ j + needle.length ≤ hay.length := by
  unfold strFind at h
  rcases Option.map_eq_some'.mp h with ⟨j', hj', hj⟩
  rcases strFindAux_bound needle hne (hay.drop pos) 0 j' hj' with ⟨hp, hl⟩
  rw [Nat.sub_zero] at hp hl
  rw [List.drop_drop] at hp
  rw [List.length_drop] at hl
  subst hj
  have hnl : 1 ≤ needle.length := by
    rcases needle with _ | ⟨n, nr⟩
    · exact absurd rfl hne
    · simp
  constructor
  · omega
  · constructor
    · rw [Nat.add_comm pos j'] at hp
      exact hp
    · omega

theorem isPrefixOf_append_mono (l x e : Str) (h : l.isPrefixOf x) :
    l.isPrefixOf (x ++ e) := by
  rw [List.isPrefixOf_iff_prefix] at h ⊢
  exact h.trans (List.prefix_append x e)

theorem strFindAux_append_some (needle : Str) (hne : needle ≠ []) :
    ∀ (s : Str) (i j : Nat) (e : Str), strFindAux needle s i = some j →
      strFindAux needle (s ++ e) i = some j := by
  intro s
  induction s with
  | nil =>
    intro i j e h
    rcases needle with _ | ⟨n, nr⟩
    · exact absurd rfl hne
    · unfold strFindAux at h
      rw [if_neg (by intro hc; cases hc)] at h
      cases h
  | cons c rest ih =>
    intro i j e h
    unfold strFindAux at h
    split at h
    · cases h
      rename_i hp
      rw [List.cons_append]
      simp only [strFindAux]
      rw [if_pos (by rw [← List.cons_append]; exact isPrefixOf_append_mono _ _ _ hp)]
    · rename_i hp
      have hbound := strFindAux_bound needle hne rest (i + 1) j h
      rw [List.cons_append]
      simp only [strFindAux]
      rw [if_neg ?_]
      · exact ih (i + 1) j e h
      · intro hc
        apply hp
        rw [List.isPrefixOf_iff_prefix] at hc ⊢
        have hlen : needle.length ≤ (c :: rest).length := by
          simp only [List.length_cons]
          omega
        have heq : needle = List.take needle.length (c :: rest) := by
          have h1 := List.prefix_iff_eq_take.mp hc
          rw [← List.cons_append, List.take_append_of_le_length hlen] at h1
          exact h1
        rw [heq]
        exact List.take_prefix _ _

theorem strFind_append_some (hay needle : Str) (pos j : Nat) (e : Str)
    (hne : needle ≠ []) (h : strFind hay needle pos = some j) :
    strFind (hay ++ e) needle pos = some j := by
  have hb := strFind_bound hay needle pos j hne h
  have hpos : pos ≤ hay.length := by
    have hnl : 1 ≤ needle.length := by
      rcases needle with _ | ⟨n, nr⟩
      · exact absurd rfl hne
      · simp
    omega
  unfold strFind at h ⊢
  rw [List.drop_append_of_le_length hpos]
  rcases Option.map_eq_some'.mp h with ⟨j', hj', hj⟩
  rw [strFindAux_append_some needle hne (hay.drop pos) 0 j' e hj']
  rw [Option.map_some']
  exact hj ▸ rfl

theorem substrL_append (s e : Str) (pos cnt : Nat) (h : pos + cnt ≤ s.length) :
    substrL (s ++ e) pos cnt = substrL s pos cnt := by
  unfold substrL
  rw [List.drop_append_of_le_length (by omega)]
  rw [List.take_append_of_le_length (by rw [List.length_drop]; omega)]

theorem parseLoop_terminal (fuel : Nat) (r : HttpRequest)
    (h : r.state = ParseState.COMPLETE ∨ r.state = ParseState.ERROR) :
    parseLoop fuel r = (r, decide (r.state = ParseState.COMPLETE)) := by
  cases fuel with
  | zero => rfl
  | succ f =>
    rw [parseLoop_step]
    rcases h with h | h
    · rw [if_pos h, h]
      rfl
    · rw [if_neg (by rw [h]; decide), if_pos h, h]
      rfl

theorem parseLoop_raw (fuel : Nat) :
    ∀ r, (parseLoop fuel r).1.raw_data = r.raw_data := by
  induction fuel with
  | zero => intro r; rfl
  | succ f ih =>
    intro r
    rw [parseLoop_step]
    by_cases h1 : r.state = ParseState.COMPLETE
    · rw [if_pos h1]
    · rw [if_neg h1]
      by_cases h2 : r.state = ParseState.ERROR
      · rw [if_pos h2]
      · rw [if_neg h2]
        by_cases h3 : r.state = ParseState.BODY
        · rw [if_pos h3]
          by_cases h4 : isChunkedReq r = true
          · rw [if_pos h4]
          · rw [if_neg h4]
            by_cases h5 : r.content_length ≤ r.raw_data.length - r.bytes_parsed
            · rw [if_pos h5, ih]
            · rw [if_neg h5]
        · rw [if_neg h3]
          rcases Option.eq_none_or_eq_some
              (strFind r.raw_data (str "\r\n") r.bytes_parsed) with hf | ⟨j, hf⟩
          · rw [hf]
            by_cases h6 : r.raw_data.length > 8192
            · rw [if_pos h6]
            · rw [if_neg h6]
          · rw [hf]
            dsimp only
            rw [ih]
            by_cases h7 : r.state = ParseState.REQUEST_LINE
            · rw [if_pos h7, (parseRequestLine_raw_bp _ _).1]
            · rw [if_neg h7]
              by_cases h8 : substrL r.raw_data r.bytes_parsed (j - r.bytes_parsed) = []
              · rw [if_pos h8, (finishHeaders_raw_bp _).1]
              · rw [if_neg h8, (parseHeader_raw_bp _ _).1]

theorem parseLoop_bool (fuel : Nat) :
    ∀ r, (parseLoop fuel r).2 =
      decide ((parseLoop fuel r).1.state = ParseState.COMPLETE) := by
  induction fuel with
  | zero => intro r; rfl
  | succ f ih =>
    intro r
    rw [parseLoop_step]
    by_cases h1 : r.state = ParseState.COMPLETE
    · rw [if_pos h1]
      exact (decide_eq_true h1).symm
    · rw [if_neg h1]
      by_cases h2 : r.state = ParseState.ERROR
      · rw [if_pos h2]
        exact (decide_eq_false (by rw [h2]; decide)).symm
      · rw [if_neg h2]
        by_cases h3 : r.state = ParseState.BODY
        · rw [if_pos h3]
          by_cases h4 : isChunkedReq r = true
          · rw [if_pos h4]
            rfl
          · rw [if_neg h4]
            by_cases h5 : r.content_length ≤ r.raw_data.length - r.bytes_parsed
            · rw [if_pos h5, ih]
            · rw [if_neg h5]
              exact (decide_eq_false (by rw [h3]; decide)).symm
        · rw [if_neg h3]
          rcases Option.eq_none_or_eq_some
              (strFind r.raw_data (str "\r\n") r.bytes_parsed) with hf | ⟨j, hf⟩
          · rw [hf]
            by_cases h6 : r.raw_data.length > 8192
            · rw [if_pos h6]
              rfl
            · rw [if_neg h6]
              exact (decide_eq_false h1).symm
          · rw [hf]
            dsimp only
            rw [ih]
  
theorem parseLoop_bp_le (fuel : Nat) :
    ∀ r, r.bytes_parsed ≤ r.raw_data.length →
      (parseLoop fuel r).1.bytes_parsed ≤ (parseLoop fuel r).1.raw_data.length := by
  induction fuel with
  | zero => intro r h; exact h
  | succ f ih =>
    intro r hbp
    rw [parseLoop_step]
    by_cases h1 : r.state = ParseState.COMPLETE
    · rw [if_pos h1]; exact hbp
    · rw [if_neg h1]
      by_cases h2 : r.state = ParseState.ERROR
      · rw [if_pos h2]; exact hbp
      · rw [if_neg h2]
        by_cases h3 : r.state = ParseState.BODY
        · rw [if_pos h3]
          by_cases h4 : isChunkedReq r = true
          · rw [if_pos h4]; exact hbp
          · rw [if_neg h4]
            by_cases h5 : r.content_length ≤ r.raw_data.length - r.bytes_parsed
            · rw [if_pos h5]
              exact ih _ (by dsimp only; omega)
            · rw [if_neg h5]; exact hbp
        · rw [if_neg h3]
          rcases Option.eq_none_or_eq_some
              (strFind r.raw_data (str "\r\n") r.bytes_parsed) with hf | ⟨j, hf⟩
          · rw [hf]
            by_cases h6 : r.raw_data.length > 8192
            · rw [if_pos h6]; exact hbp
            · rw [if_neg h6]; exact hbp
          · rw [hf]
            dsimp only
            have hb := strFind_bound r.raw_data (str "\r\n") r.bytes_parsed j
              (by decide) hf
            by_cases h7 : r.state = ParseState.REQUEST_LINE
            · rw [if_pos h7]
              apply ih
              rw [(parseRequestLine_raw_bp _ _).1, (parseRequestLine_raw_bp _ _).2]
              dsimp only
              have hcl2 : (str "\r\n").length = 2 := rfl
              have hj2 := hb.2.2
              omega
            · rw [if_neg h7]
              by_cases h8 : substrL r.raw_data r.bytes_parsed (j - r.bytes_parsed) = []
              · rw [if_pos h8]
                apply ih
                rw [(finishHeaders_raw_bp _).1, (finishHeaders_raw_bp _).2]
                dsimp only
                have hcl2 : (str "\r\n").length = 2 := rfl
                have hj2 := hb.2.2
                omega
              · rw [if_neg h8]
                apply ih
                rw [(parseHeader_raw_bp _ _).1, (parseHeader_raw_bp _ _).2]
                dsimp only
                have hcl2 : (str "\r\n").length = 2 := rfl
                have hj2 := hb.2.2
                omega

theorem parseLoop_fuel_irrelevant :
    ∀ (n f g : Nat) (r : HttpRequest),
      (r.raw_data.length - r.bytes_parsed) + 2 ≤ n →
      (r.raw_data.length - r.bytes_parsed) + 2 ≤ f →
      (r.raw_data.length - r.bytes_parsed) + 2 ≤ g →
      parseLoop f r = parseLoop g r := by
  intro n
  induction n using Nat.strongRecOn with
  | ind n ih =>
    intro f g r hn hf hg
    obtain ⟨f', rfl⟩ : ∃ f', f = f' + 1 := ⟨f - 1, by omega⟩
    obtain ⟨g', rfl⟩ : ∃ g', g = g' + 1 := ⟨g - 1, by omega⟩
    rw [parseLoop_step, parseLoop_step]
    by_cases h1 : r.state = ParseState.COMPLETE
    · rw [if_pos h1, if_pos h1]
    · rw [if_neg h1, if_neg h1]
      by_cases h2 : r.state = ParseState.ERROR
      · rw [if_pos h2, if_pos h2]
      · rw [if_neg h2, if_neg h2]
        by_cases h3 : r.state = ParseState.BODY
        · rw [if_pos h3, if_pos h3]
          by_cases h4 : isChunkedReq r = true
          · rw [if_pos h4, if_pos h4]
          · rw [if_neg h4, if_neg h4]
            by_cases h5 : r.content_length ≤ r.raw_data.length - r.bytes_parsed
            · rw [if_pos h5, if_pos h5]
              rw [parseLoop_terminal f' _ (Or.inl rfl), parseLoop_terminal g' _ (Or.inl rfl)]
            · rw [if_neg h5, if_neg h5]
        · rw [if_neg h3, if_neg h3]
          rcases Option.eq_none_or_eq_some
              (strFind r.raw_data (str "\r\n") r.bytes_parsed) with hff | ⟨j, hff⟩
          · rw [hff]
          · rw [hff]
            dsimp only
            have hb := strFind_bound r.raw_data (str "\r\n") r.bytes_parsed j
              (by decide) hff
            have hcl2 : (str "\r\n").length = 2 := rfl
            have hj2 := hb.2.2
            have hjb := hb.1
            by_cases h7 : r.state = ParseState.REQUEST_LINE
            · rw [if_pos h7]
              apply ih ((r.raw_data.length - r.bytes_parsed) + 1) (by omega)
              · rw [(parseRequestLine_raw_bp _ _).1, (parseRequestLine_raw_bp _ _).2]
                dsimp only
                omega
              · rw [(parseRequestLine_raw_bp _ _).1, (parseRequestLine_raw_bp _ _).2]
                dsimp only
                omega
              · rw [(parseRequestLine_raw_bp _ _).1, (parseRequestLine_raw_bp _ _).2]
                dsimp only
                omega
            · rw [if_neg h7]
              by_cases h8 : substrL r.raw_data r.bytes_parsed (j - r.bytes_parsed) = []
              · rw [if_pos h8]
                apply ih ((r.raw_data.length - r.bytes_parsed) + 1) (by omega)
                · rw [(finishHeaders_raw_bp _).1, (finishHeaders_raw_bp _).2]
                  dsimp only
                  omega
                · rw [(finishHeaders_raw_bp _).1, (finishHeaders_raw_bp _).2]
                  dsimp only
                  omega
                · rw [(finishHeaders_raw_bp _).1, (finishHeaders_raw_bp _).2]
                  dsimp only
                  omega
              · rw [if_neg h8]
                apply ih ((r.raw_data.length - r.bytes_parsed) + 1) (by omega)
                · rw [(parseHeader_raw_bp _ _).1, (parseHeader_raw_bp _ _).2]
                  dsimp only
                  omega
                · rw [(parseHeader_raw_bp _ _).1, (parseHeader_raw_bp _ _).2]
                  dsimp only
                  omega
                · rw [(parseHeader_raw_bp _ _).1, (parseHeader_raw_bp _ _).2]
                  dsimp only
                  omega

theorem runLoop_eq_fuel (r : HttpRequest) (f : Nat)
    (hf : (r.raw_data.length - r.bytes_parsed) + 2 ≤ f) :
    parseLoop f r = runLoop r := by
  unfold runLoop
  exact parseLoop_fuel_irrelevant (f + r.raw_data.length + 2) f (r.raw_data.length + 2) r
    (by omega) hf (by omega)

theorem runLoop_append :
    ∀ (n : Nat) (r : HttpRequest) (e : Str),
      (r.raw_data.length - r.bytes_parsed) + 2 ≤ n →
      r.bytes_parsed ≤ r.raw_data.length →
      (runLoop r).1.state ≠ ParseState.ERROR →
      runLoop { r with raw_data := r.raw_data ++ e } =
        (if (runLoop r).1.state = ParseState.COMPLETE then
          ({ (runLoop r).1 with raw_data := r.raw_data ++ e }, true)
        else
          runLoop { (runLoop r).1 with raw_data := (runLoop r).1.raw_data ++ e }) := by
  intro n
  induction n using Nat.strongRecOn with
  | ind n ih =>
    intro r e hn hbp herr
    by_cases h1 : r.state = ParseState.COMPLETE
    · have hrunr : runLoop r = (r, true) := by
        unfold runLoop
        rw [parseLoop_terminal _ r (Or.inl h1), decide_eq_true h1]
      rw [hrunr]
      rw [if_pos h1]
      unfold runLoop
      rw [parseLoop_terminal _ { r with raw_data := r.raw_data ++ e } (Or.inl h1)]
      dsimp only
      rw [decide_eq_true h1]
    · by_cases h2 : r.state = ParseState.ERROR
      · exfalso
        apply herr
        unfold runLoop
        rw [parseLoop_terminal _ r (Or.inr h2)]
        exact h2
      · by_cases h3 : r.state = ParseState.BODY
        · by_cases h4 : isChunkedReq r = true
          · exfalso
            apply herr
            unfold runLoop
            rw [show r.raw_data.length + 2 = (r.raw_data.length + 1) + 1 from rfl,
              parseLoop_step, if_neg h1, if_neg h2, if_pos h3, if_pos h4]
          · by_cases h5 : r.content_length ≤ r.raw_data.length - r.bytes_parsed
            · have hrunr : runLoop r =
                  ({ r with
                      body := substrL r.raw_data r.bytes_parsed r.content_length
                      bytes_parsed := r.bytes_parsed + r.content_length
                      state := ParseState.COMPLETE }, true) := by
                unfold runLoop
                rw [show r.raw_data.length + 2 = (r.raw_data.length + 1) + 1 from rfl,
                  parseLoop_step, if_neg h1, if_neg h2, if_pos h3, if_neg h4, if_pos h5]
                rw [parseLoop_terminal _ _ (Or.inl rfl)]
                rfl
              rw [hrunr]
              rw [if_pos rfl]
              unfold runLoop
              rw [show ({ r with raw_data := r.raw_data ++ e } :
                    HttpRequest).raw_data.length + 2 =
                  (({ r with raw_data := r.raw_data ++ e} :
                    HttpRequest).raw_data.length + 1) + 1 from rfl,
                parseLoop_step]
              dsimp only
              rw [if_neg h1, if_neg h2, if_pos h3, isChunkedReq_raw, if_neg h4]
              rw [if_pos (show r.content_length ≤
                  (r.raw_data ++ e).length - r.bytes_parsed by
                rw [List.length_append]; omega)]
              rw [parseLoop_terminal _ _ (Or.inl rfl)]
              dsimp only
              rw [substrL_append _ _ _ _ (by omega)]
              rfl
            · have hrunr : runLoop r = (r, false) := by
                unfold runLoop
                rw [show r.raw_data.length + 2 = (r.raw_data.length + 1) + 1 from rfl,
                  parseLoop_step, if_neg h1, if_neg h2, if_pos h3, if_neg h4, if_neg h5]
              rw [hrunr]
              dsimp only
              rw [if_neg h1]
        · rcases Option.eq_none_or_eq_some
              (strFind r.raw_data (str "\r\n") r.bytes_parsed) with hf | ⟨j, hf⟩
          · by_cases h6 : r.raw_data.length > 8192
            · exfalso
              apply herr
              unfold runLoop
              rw [show r.raw_data.length + 2 = (r.raw_data.length + 1) + 1 from rfl,
                parseLoop_step, if_neg h1, if_neg h2, if_neg h3, hf]
              dsimp only
              rw [if_pos h6]
            · have hrunr : runLoop r = (r, false) := by
                unfold runLoop
                rw [show r.raw_data.length + 2 = (r.raw_data.length + 1) + 1 from rfl,
                  parseLoop_step, if_neg h1, if_neg h2, if_neg h3, hf]
                dsimp only
                rw [if_neg h6]
              rw [hrunr]
              dsimp only
              rw [if_neg h1]
          · have hb := strFind_bound r.raw_data (str "\r\n") r.bytes_parsed j
              (by decide) hf
            have hcl2 : (str "\r\n").length = 2 := rfl
            have hjb := hb.1
            have hj2 := hb.2.2
            have hf' : strFind (r.raw_data ++ e) (str "\r\n") r.bytes_parsed = some j :=
              strFind_append_some _ _ _ _ e (by decide) hf
            have hline : substrL (r.raw_data ++ e) r.bytes_parsed (j - r.bytes_parsed) =
                substrL r.raw_data r.bytes_parsed (j - r.bytes_parsed) :=
              substrL_append _ _ _ _ (by omega)
            by_cases h7 : r.state = ParseState.REQUEST_LINE
            · have hrunr : runLoop r = runLoop (parseRequestLine
                  { r with bytes_parsed := j + 2 }
                  (substrL r.raw_data r.bytes_parsed (j - r.bytes_parsed))) := by
                unfold runLoop
                rw [show r.raw_data.length + 2 = (r.raw_data.length + 1) + 1 from rfl,
                  parseLoop_step, if_neg h1, if_neg h2, if_neg h3, hf]
                dsimp only
                rw [if_pos h7]
                rw [runLoop_eq_fuel _ _ (by
                  rw [(parseRequestLine_raw_bp _ _).1, (parseRequestLine_raw_bp _ _).2]
                  dsimp only
                  omega)]
                rw [runLoop_eq_fuel _ _ (by omega)]
              have hlhs : runLoop { r with raw_data := r.raw_data ++ e } =
                  runLoop { (parseRequestLine { r with bytes_parsed := j + 2 }
                      (substrL r.raw_data r.bytes_parsed (j - r.bytes_parsed))) with
                    raw_data := r.raw_data ++ e } := by
                unfold runLoop
                rw [show ({ r with raw_data := r.raw_data ++ e } :
                      HttpRequest).raw_data.length + 2 =
                    (({ r with raw_data := r.raw_data ++ e} :
                      HttpRequest).raw_data.length + 1) + 1 from rfl,
                  parseLoop_step]
                dsimp only
                rw [if_neg h1, if_neg h2, if_neg h3, hf']
                dsimp only
                rw [if_pos h7]
                rw [hline]
                rw [show ({ r with raw_data := r.raw_data ++ e, bytes_parsed := j + 2 } :
                    HttpRequest) =
                  { ({ r with bytes_parsed := j + 2 } : HttpRequest) with
                    raw_data := r.raw_data ++ e } from rfl]
                rw [parseRequestLine_raw_comm]
                rw [runLoop_eq_fuel _ _ (by
                  dsimp only
                  rw [(parseRequestLine_raw_bp _ _).2]
                  dsimp only
                  rw [List.length_append]
                  omega)]
                rw [runLoop_eq_fuel _ _ (by
                  dsimp only
                  rw [(parseRequestLine_raw_bp _ _).2]
                  dsimp only
                  omega)]
              rw [hlhs, hrunr]
              have hbody := ih ((r.raw_data.length - r.bytes_parsed) + 1) (by omega)
                (parseRequestLine { r with bytes_parsed := j + 2 }
                  (substrL r.raw_data r.bytes_parsed (j - r.bytes_parsed))) e
                (by rw [(parseRequestLine_raw_bp _ _).1, (parseRequestLine_raw_bp _ _).2]
                    dsimp only
                    omega)
                (by rw [(parseRequestLine_raw_bp _ _).1, (parseRequestLine_raw_bp _ _).2]
                    dsimp only
                    omega)
                (by rw [← hrunr]; exact herr)
              rw [(parseRequestLine_raw_bp _ _).1] at hbody
              exact hbody
            · by_cases h8 : substrL r.raw_data r.bytes_parsed (j - r.bytes_parsed) = []
              · have hrunr : runLoop r = runLoop (finishHeaders
                    { r with bytes_parsed := j + 2 }) := by
                  unfold runLoop
                  rw [show r.raw_data.length + 2 = (r.raw_data.length + 1) + 1 from rfl,
                    parseLoop_step, if_neg h1, if_neg h2, if_neg h3, hf]
                  dsimp only
                  rw [if_neg h7, if_pos h8]
                  rw [runLoop_eq_fuel _ _ (by
                    rw [(finishHeaders_raw_bp _).1, (finishHeaders_raw_bp _).2]
                    dsimp only
                    omega)]
                  rw [runLoop_eq_fuel _ _ (by omega)]
                have hlhs : runLoop { r with raw_data := r.raw_data ++ e } =
                    runLoop { (finishHeaders { r with bytes_parsed := j + 2 }) with
                      raw_data := r.raw_data ++ e } := by
                  unfold runLoop
                  rw [show ({ r with raw_data := r.raw_data ++ e } :
                        HttpRequest).raw_data.length + 2 =
                      (({ r with raw_data := r.raw_data ++ e} :
                        HttpRequest).raw_data.length + 1) + 1 from rfl,
                    parseLoop_step]
                  dsimp only
                  rw [if_neg h1, if_neg h2, if_neg h3, hf']
                  dsimp only
                  rw [if_neg h7]
                  rw [hline]
                  rw [if_pos h8]
                  rw [show ({ r with raw_data := r.raw_data ++ e, bytes_parsed := j + 2 } :
                      HttpRequest) =
                    { ({ r with bytes_parsed := j + 2 } : HttpRequest) with
                      raw_data := r.raw_data ++ e } from rfl]
                  rw [finishHeaders_raw_comm]
                  rw [runLoop_eq_fuel _ _ (by
                    dsimp only
                    rw [(finishHeaders_raw_bp _).2]
                    dsimp only
                    rw [List.length_append]
                    omega)]
                  rw [runLoop_eq_fuel _ _ (by
                    dsimp only
                    rw [(finishHeaders_raw_bp _).2]
                    dsimp only
                    omega)]
                rw [hlhs, hrunr]
                have hbody := ih ((r.raw_data.length - r.bytes_parsed) + 1) (by omega)
                  (finishHeaders { r with bytes_parsed := j + 2 }) e
                  (by rw [(finishHeaders_raw_bp _).1, (finishHeaders_raw_bp _).2]
                      dsimp only
                      omega)
                  (by rw [(finishHeaders_raw_bp _).1, (finishHeaders_raw_bp _).2]
                      dsimp only
                      omega)
                  (by rw [← hrunr]; exact herr)
                rw [(finishHeaders_raw_bp _).1] at hbody
                exact hbody
              · have hrunr : runLoop r = runLoop (parseHeader
                    { r with bytes_parsed := j + 2 }
                    (substrL r.raw_data r.bytes_parsed (j - r.bytes_parsed))) := by
                  unfold runLoop
                  rw [show r.raw_data.length + 2 = (r.raw_data.length + 1) + 1 from rfl,
                    parseLoop_step, if_neg h1, if_neg h2, if_neg h3, hf]
                  dsimp only
                  rw [if_neg h7, if_neg h8]
                  rw [runLoop_eq_fuel _ _ (by
                    rw [(parseHeader_raw_bp _ _).1, (parseHeader_raw_bp _ _).2]
                    dsimp only
                    omega)]
                  rw [runLoop_eq_fuel _ _ (by omega)]
                have hlhs : runLoop { r with raw_data := r.raw_data ++ e } =
                    runLoop { (parseHeader { r with bytes_parsed := j + 2 }
                        (substrL r.raw_data r.bytes_parsed (j - r.bytes_parsed))) with
                      raw_data := r.raw_data ++ e } := by
                  unfold runLoop
                  rw [show ({ r with raw_data := r.raw_data ++ e } :
                        HttpRequest).raw_data.length + 2 =
                      (({ r with raw_data := r.raw_data ++ e} :
                        HttpRequest).raw_data.length + 1) + 1 from rfl,
                    parseLoop_step]
                  dsimp only
                  rw [if_neg h1, if_neg h2, if_neg h3, hf']
                  dsimp only
                  rw [if_neg h7]
                  rw [hline]
                  rw [if_neg h8]
                  rw [show ({ r with raw_data := r.raw_data ++ e, bytes_parsed := j + 2 } :
                      HttpRequest) =
                    { ({ r with bytes_parsed := j + 2 } : HttpRequest) with
                      raw_data := r.raw_data ++ e } from rfl]
                  rw [parseHeader_raw_comm]
                  rw [runLoop_eq_fuel _ _ (by
                    dsimp only
                    rw [(parseHeader_raw_bp _ _).2]
                    dsimp only
                    rw [List.length_append]
                    omega)]
                  rw [runLoop_eq_fuel _ _ (by
                    dsimp only
                    rw [(parseHeader_raw_bp _ _).2]
                    dsimp only
                    omega)]
                rw [hlhs, hrunr]
                have hbody := ih ((r.raw_data.length - r.bytes_parsed) + 1) (by omega)
                  (parseHeader { r with bytes_parsed := j + 2 }
                    (substrL r.raw_data r.bytes_parsed (j - r.bytes_parsed))) e
                  (by rw [(parseHeader_raw_bp _ _).1, (parseHeader_raw_bp _ _).2]
                      dsimp only
                      omega)
                  (by rw [(parseHeader_raw_bp _ _).1, (parseHeader_raw_bp _ _).2]
                      dsimp only
                      omega)
                  (by rw [← hrunr]; exact herr)
                rw [(parseHeader_raw_bp _ _).1] at hbody
                exact hbody

theorem parse_terminal (r : HttpRequest) (data : Str)
    (h : r.state = ParseState.COMPLETE ∨ r.state = ParseState.ERROR) :
    parse r data = (r, decide (r.state = ParseState.COMPLETE)) := by
  unfold parse
  rw [if_pos h]

theorem parse_fresh_eq (P : Str) :
    parse freshReq P = runLoop { freshReq with raw_data := P } := by
  unfold parse
  rw [if_neg (by intro h; rcases h with h | h <;> cases h)]
  rfl

theorem one_shot_append (P c : Str)
    (herr : (parse freshReq P).1.state ≠ ParseState.ERROR) :
    parse freshReq (P ++ c) =
      (if (parse freshReq P).1.state = ParseState.COMPLETE then
        ({ (parse freshReq P).1 with raw_data := P ++ c }, true)
      else parse (parse freshReq P).1 c) := by
  have hrp : parse freshReq P = runLoop { freshReq with raw_data := P } := parse_fresh_eq P
  have happ := runLoop_append
    (({ freshReq with raw_data := P } : HttpRequest).raw_data.length + 2)
    { freshReq with raw_data := P } c (by omega)
    (by dsimp only
        rw [show freshReq.bytes_parsed = 0 from rfl]
        omega)
    (by rw [← hrp]; exact herr)
  rw [parse_fresh_eq (P ++ c)]
  rw [show ({ freshReq with raw_data := P ++ c } : HttpRequest) =
    { ({ freshReq with raw_data := P } : HttpRequest) with
      raw_data := ({ freshReq with raw_data := P } : HttpRequest).raw_data ++ c }
    from rfl]
  rw [happ]
  rw [← hrp]
  by_cases hc : (parse freshReq P).1.state = ParseState.COMPLETE
  · rw [if_pos hc, if_pos hc]
  · rw [if_neg hc, if_neg hc]
    rw [parse_nonterminal _ _ hc herr]

theorem feed_rel :
    ∀ (chunks : List Str) (P : Str) (B : HttpRequest × Bool),
      (∀ Q : Str, Q <+: (P ++ chunks.flatten) →
        (parse freshReq Q).1.state ≠ ParseState.ERROR) →
      (parse freshReq P = B ∨
        ((parse freshReq P).1.state = ParseState.COMPLETE ∧
          B.1.state = ParseState.COMPLETE ∧
          obsReq (parse freshReq P).1 = obsReq B.1 ∧
          (parse freshReq P).2 = true ∧ B.2 = true)) →
      (parse freshReq (P ++ chunks.flatten) =
          chunks.foldl (fun p c => parse p.1 c) B ∨
        ((parse freshReq (P ++ chunks.flatten)).1.state = ParseState.COMPLETE ∧
          (chunks.foldl (fun p c => parse p.1 c) B).1.state = ParseState.COMPLETE ∧
          obsReq (parse freshReq (P ++ chunks.flatten)).1 =
            obsReq (chunks.foldl (fun p c => parse p.1 c) B).1 ∧
          (parse freshReq (P ++ chunks.flatten)).2 = true ∧
          (chunks.foldl (fun p c => parse p.1 c) B).2 = true)) := by
  intro chunks
  induction chunks with
  | nil =>
    intro P B hfree hrel
    rw [List.flatten_nil, List.append_nil] at hfree ⊢
    rw [List.foldl_nil]
    exact hrel
  | cons c cs ih =>
    intro P B hfree hrel
    rw [List.flatten_cons] at hfree ⊢
    rw [← List.append_assoc] at hfree ⊢
    rw [List.foldl_cons]
    have hPfree : (parse freshReq P).1.state ≠ ParseState.ERROR := by
      apply hfree P
      refine ⟨c ++ cs.flatten, by rw [List.append_assoc]⟩
    have hPcfree : (parse freshReq (P ++ c)).1.state ≠ ParseState.ERROR := by
      apply hfree (P ++ c)
      exact ⟨cs.flatten, rfl⟩
    apply ih (P ++ c) (parse B.1 c) hfree
    rcases hrel with hrel | hrel
    · by_cases hc : (parse freshReq P).1.state = ParseState.COMPLETE
      · right
        rw [one_shot_append P c hPfree, if_pos hc]
        rw [← hrel]
        rw [parse_terminal _ c (Or.inl hc)]
        refine ⟨hc, hc, rfl, rfl, by rw [decide_eq_true hc]⟩
      · left
        rw [one_shot_append P c hPfree, if_neg hc]
        rw [hrel]
    · rcases hrel with ⟨hP, hB, hobs, hb1, hb2⟩
      right
      rw [one_shot_append P c hPfree, if_pos hP]
      rw [parse_terminal _ c (Or.inl hB)]
      refine ⟨hP, hB, ?_, rfl, by rw [decide_eq_true hB]⟩
      exact hobs

/-- C3 (amended): chunk-boundary independence holds for every well-formed
request whose prefixes never drive the parser into the ERROR state
(equivalently, whose request-line-plus-header block stays within the 8 KB
accumulation cap): feeding the request in arbitrary non-empty chunks ends
in the same terminal state, the same observable fields (method, uri,
query_string, http_version, headers, body, content_length, error_code) and
the same result as feeding it in a single call. -/
theorem c3_chunk_boundary_independence (chunks : List Str) (full : Str)
    (hne : chunks ≠ []) (hchunks : ∀ c ∈ chunks, c ≠ [])
    (hjoin : chunks.flatten = full)
    (hwf : (parse freshReq full).2 = true)
    (hcap : ∀ k, k ≤ full.length →
      (parse freshReq (full.take k)).1.state ≠ ParseState.ERROR) :
    (feedAll freshReq chunks).1.state = (parse freshReq full).1.state ∧
    obsReq (feedAll freshReq chunks).1 = obsReq (parse freshReq full).1 ∧
    (feedAll freshReq chunks).2 = (parse freshReq full).2 := by
  have hbase : parse freshReq [] = (freshReq, false) := by decide
  have hrel := feed_rel chunks [] (freshReq, false) ?_ (Or.inl hbase)
  · rw [List.nil_append, hjoin] at hrel
    unfold feedAll
    rcases hrel with hrel | hrel
    · rw [← hrel]
      exact ⟨rfl, rfl, rfl⟩
    · rcases hrel with ⟨h1, h2, h3, h4, h5⟩
      refine ⟨by rw [h1, h2], h3.symm, by rw [h5, h4]⟩
  · intro Q hQ
    rw [List.nil_append, hjoin] at hQ
    have hlen := hQ.length_le
    have hQeq := List.prefix_iff_eq_take.mp hQ
    rw [hQeq]
    exact hcap Q.length hlen

/-- Witness for `c3_chunk_boundary_independence`: a complete GET request fed
in three uneven chunks. -/
theorem c3_chunk_boundary_independence_witness :
    ([str "GET /index.", str "html?x=1 HTTP/1.1\r", str "\nHost: h\r\n\r\n"] ≠
        ([] : List Str)) ∧
    (parse freshReq (str "GET /index.html?x=1 HTTP/1.1\r\nHost: h\r\n\r\n")).2 = true ∧
    (feedAll freshReq
        [str "GET /index.", str "html?x=1 HTTP/1.1\r", str "\nHost: h\r\n\r\n"]).1.state =
      (parse freshReq (str "GET /index.html?x=1 HTTP/1.1\r\nHost: h\r\n\r\n")).1.state ∧
    obsReq (feedAll freshReq
        [str "GET /index.", str "html?x=1 HTTP/1.1\r", str "\nHost: h\r\n\r\n"]).1 =
      obsReq (parse freshReq (str "GET /index.html?x=1 HTTP/1.1\r\nHost: h\r\n\r\n")).1 ∧
    (feedAll freshReq
        [str "GET /index.", str "html?x=1 HTTP/1.1\r", str "\nHost: h\r\n\r\n"]).2 =
      (parse freshReq (str "GET /index.html?x=1 HTTP/1.1\r\nHost: h\r\n\r\n")).2 := by
  refine ⟨by decide, by decide, ?_⟩
  exact c3_chunk_boundary_independence
    [str "GET /index.", str "html?x=1 HTTP/1.1\r", str "\nHost: h\r\n\r\n"]
    (str "GET /index.html?x=1 HTTP/1.1\r\nHost: h\r\n\r\n")
    (by decide) (by decide) (by decide) (by decide) (by decide)

theorem strFindAux_found (needle s : Str) (i : Nat) (h : needle.isPrefixOf s) :
    strFindAux needle s i = some i := by
  cases s with
  | nil =>
    unfold strFindAux
    rw [if_pos h]
  | cons c rest =>
    unfold strFindAux
    rw [if_pos h]

theorem strFindAux_nil_none (needle : Str) (i : Nat) (hne : needle ≠ []) :
    strFindAux needle [] i = none := by
  rcases needle with _ | ⟨n, nr⟩
  · exact absurd rfl hne
  · unfold strFindAux
    rw [if_neg (by intro hc; cases hc)]

theorem strFindAux_skip (n₀ : Char) (nrest : Str) :
    ∀ (l s : Str) (i : Nat), (∀ c ∈ l, c ≠ n₀) →
      strFindAux (n₀ :: nrest) (l ++ s) i =
        strFindAux (n₀ :: nrest) s (i + l.length) := by
  intro l
  induction l with
  | nil =>
    intro s i _
    rw [List.nil_append, List.length_nil, Nat.add_zero]
  | cons c t ih =>
    intro s i h
    rw [List.cons_append]
    simp only [strFindAux]
    rw [if_neg ?_]
    · rw [ih s (i + 1) (fun x hx => h x (List.mem_cons_of_mem c hx))]
      rw [List.length_cons]
      rw [show (i + 1) + t.length = i + (t.length + 1) from by omega]
    · intro hc
      simp only [List.isPrefixOf, Bool.and_eq_true, beq_iff_eq] at hc
      exact h c (List.mem_cons_self c t) hc.1.symm

theorem splitWsAux_skip :
    ∀ (l s cur : Str), (∀ c ∈ l, isStreamWs c = false) →
      splitWsAux (l ++ s) cur = splitWsAux s (l.reverse ++ cur) := by
  intro l
  induction l with
  | nil =>
    intro s cur _
    rw [List.nil_append, List.reverse_nil, List.nil_append]
  | cons c t ih =>
    intro s cur h
    rw [List.cons_append]
    rw [splitWsAux]
    rw [if_neg (by rw [h c (List.mem_cons_self c t)]; exact Bool.false_ne_true)]
    rw [ih s (c :: cur) (fun x hx => h x (List.mem_cons_of_mem c hx))]
    rw [List.reverse_cons, List.append_assoc, List.singleton_append]

theorem splitWsAux_ws (c : Char) (s cur : Str) (hws : isStreamWs c = true)
    (hcur : cur ≠ []) :
    splitWsAux (c :: s) cur = cur.reverse :: splitWsAux s [] := by
  rw [splitWsAux]
  rw [if_pos hws, if_neg hcur]

theorem bigreq_find1 (n : Nat) (rest : Str) :
    strFind (str "GET /" ++ (List.replicate n 'a' ++ (str " HTTP/1.1\r\n" ++ rest)))
      (str "\r\n") 0 = some (n + 14) := by
  unfold strFind
  rw [List.drop_zero]
  rw [show (str "\r\n") = '\r' :: str "\n" from rfl]
  rw [strFindAux_skip '\r' (str "\n") (str "GET /") _ 0 (by decide)]
  rw [strFindAux_skip '\r' (str "\n") (List.replicate n 'a') _ _
    (by intro c hc; rw [List.eq_of_mem_replicate hc]; decide)]
  rw [show str " HTTP/1.1\r\n" ++ rest = str " HTTP/1.1" ++ (str "\r\n" ++ rest) from rfl]
  rw [strFindAux_skip '\r' (str "\n") (str " HTTP/1.1") _ _ (by decide)]
  rw [strFindAux_found _ _ _ (isPrefixOf_append_mono _ _ rest (by decide))]
  rw [Option.map_some']
  rw [List.length_replicate]
  rw [show (str "GET /").length = 5 from rfl]
  rw [show (str " HTTP/1.1").length = 9 from rfl]
  congr 1
  omega

theorem bigreq_take (n : Nat) (rest : Str) :
    (str "GET /" ++ (List.replicate n 'a' ++ (str " HTTP/1.1\r\n" ++ rest))).take (n + 14) =
      str "GET /" ++ (List.replicate n 'a' ++ str " HTTP/1.1") := by
  rw [List.take_append_eq_append_take]
  rw [List.take_of_length_le (by rw [show (str "GET /").length = 5 from rfl]; omega)]
  rw [show (str "GET /").length = 5 from rfl]
  rw [List.take_append_eq_append_take]
  rw [List.take_replicate]
  rw [List.length_replicate]
  rw [show (n + 14 - 5) ⊓ n = n from by
    rw [Nat.min_def]
    split <;> omega]
  rw [List.take_append_eq_append_take]
  rw [show n + 14 - 5 - n = 9 from by omega]
  rw [show List.take 9 (str " HTTP/1.1\r\n") = str " HTTP/1.1" from by decide]
  rw [show (9 : Nat) - (str " HTTP/1.1\r\n").length = 0 from by decide]
  rw [List.take_zero, List.append_nil]

theorem bigreq_tokens (n : Nat) :
    splitWs (str "GET /" ++ (List.replicate n 'a' ++ str " HTTP/1.1")) =
      [str "GET", '/' :: List.replicate n 'a', str "HTTP/1.1"] := by
  unfold splitWs
  rw [show str "GET /" ++ (List.replicate n 'a' ++ str " HTTP/1.1") =
      str "GET" ++ (' ' :: (('/' :: List.replicate n 'a') ++ (' ' :: str "HTTP/1.1")))
    from rfl]
  rw [splitWsAux_skip (str "GET") _ [] (by decide)]
  rw [splitWsAux_ws ' ' _ _ (by decide) (by decide)]
  rw [show ((str "GET").reverse ++ ([] : Str)).reverse = str "GET" from by decide]
  rw [splitWsAux_skip ('/' :: List.replicate n 'a') _ [] (by
    intro c hc
    rcases List.mem_cons.mp hc with h | h
    · rw [h]; decide
    · rw [List.eq_of_mem_replicate h]; decide)]
  rw [splitWsAux_ws ' ' _ _ (by decide) (by
    rw [List.append_nil]
    simp [List.reverse_eq_nil_iff])]
  rw [List.append_nil, List.reverse_reverse]
  rw [show (str "HTTP/1.1") = str "HTTP/1.1" ++ ([] : Str) from (List.append_nil _).symm]
  rw [splitWsAux_skip (str "HTTP/1.1") [] [] (by decide)]
  rw [splitWsAux]
  rw [if_neg (by decide)]
  simp

theorem strFindAux_none_of_no_head (n₀ : Char) (nrest : Str) (l : Str) (i : Nat)
    (h : ∀ c ∈ l, c ≠ n₀) : strFindAux (n₀ :: nrest) l i = none := by
  have hs := strFindAux_skip n₀ nrest l [] i h
  rw [List.append_nil] at hs
  rw [hs]
  exact strFindAux_nil_none _ _ (by intro hc; cases hc)

theorem bigreq_uri_noq (n : Nat) :
    strFind ('/' :: List.replicate n 'a') (str "?") 0 = none := by
  unfold strFind
  rw [List.drop_zero]
  rw [show (str "?") = '?' :: ([] : Str) from rfl]
  rw [strFindAux_none_of_no_head '?' [] _ 0 (by
    intro c hc
    rcases List.mem_cons.mp hc with h | h
    · rw [h]; decide
    · rw [List.eq_of_mem_replicate h]; decide)]
  rfl

theorem bigreq_drop (n : Nat) (rest : Str) :
    (str "GET /" ++ (List.replicate n 'a' ++ (str " HTTP/1.1\r\n" ++ rest))).drop (n + 16) =
      rest := by
  rw [List.drop_append_eq_append_drop]
  rw [List.drop_of_length_le (by rw [show (str "GET /").length = 5 from rfl]; omega)]
  rw [List.nil_append]
  rw [show (str "GET /").length = 5 from rfl]
  rw [List.drop_append_eq_append_drop]
  rw [List.drop_replicate]
  rw [List.length_replicate]
  rw [show n - (n + 16 - 5) = 0 from by omega]
  rw [List.replicate_zero, List.nil_append]
  rw [List.drop_append_eq_append_drop]
  rw [show n + 16 - 5 - n = 11 from by omega]
  rw [show List.drop 11 (str " HTTP/1.1\r\n") = [] from by decide]
  rw [show (11 : Nat) - (str " HTTP/1.1\r\n").length = 0 from by decide]
  rw [List.drop_zero, List.nil_append]

theorem bigreq_len (n : Nat) (rest : Str) :
    (str "GET /" ++ (List.replicate n 'a' ++ (str " HTTP/1.1\r\n" ++ rest))).length =
      n + 16 + rest.length := by
  rw [List.length_append, List.length_append, List.length_append]
  rw [List.length_replicate]
  rw [show (str "GET /").length = 5 from rfl]
  rw [show (str " HTTP/1.1\r\n").length = 11 from rfl]
  omega

theorem bigreq_parse_step1 (n : Nat) (rest : Str) :
    parse freshReq (str "GET /" ++ (List.replicate n 'a' ++ (str " HTTP/1.1\r\n" ++ rest))) =
      parseLoop (n + 16 + rest.length + 1)
        { freshReq with
            raw_data := str "GET /" ++ (List.replicate n 'a' ++ (str " HTTP/1.1\r\n" ++ rest))
            method := HttpMethod.GET
            uri := '/' :: List.replicate n 'a'
            http_version := str "HTTP/1.1"
            state := ParseState.HEADERS
            bytes_parsed := n + 16 } := by
  rw [parse_fresh_eq]
  unfold runLoop
  dsimp only
  rw [bigreq_len n rest]
  rw [show n + 16 + rest.length + 2 = (n + 16 + rest.length + 1) + 1 from rfl]
  rw [parseLoop_step]
  dsimp only
  rw [show freshReq.state = ParseState.REQUEST_LINE from rfl]
  rw [if_neg (by decide), if_neg (by decide), if_neg (by decide)]
  rw [show freshReq.bytes_parsed = 0 from rfl]
  rw [bigreq_find1 n rest]
  dsimp only
  rw [if_pos rfl]
  rw [Nat.sub_zero]
  unfold substrL
  rw [List.drop_zero]
  rw [bigreq_take n rest]
  rw [show n + 14 + 2 = n + 16 from by omega]
  unfold parseRequestLine
  dsimp only
  rw [bigreq_tokens n]
  rw [show (([str "GET", '/' :: List.replicate n 'a', str "HTTP/1.1"] :
      List Str).headD []) = str "GET" from rfl]
  rw [show stringToMethod (str "GET") = HttpMethod.GET from rfl]
  rw [show (([str "GET", '/' :: List.replicate n 'a', str "HTTP/1.1"] :
      List Str).getD 1 freshReq.uri) = '/' :: List.replicate n 'a' from rfl]
  rw [show (([str "GET", '/' :: List.replicate n 'a', str "HTTP/1.1"] :
      List Str).getD 2 freshReq.http_version) = str "HTTP/1.1" from rfl]
  rw [if_neg (by decide)]
  rw [if_neg (by
    intro hor
    rcases hor with h | h
    · exact List.cons_ne_nil _ _ h
    · exact (by decide : str "HTTP/1.1" ≠ ([] : Str)) h)]
  rw [if_neg (by
    intro hc
    exact hc.1 rfl)]
  unfold parseQueryString
  dsimp only
  rw [bigreq_uri_noq n]

theorem bigreq_find2_none (n : Nat) (rest : Str) (h : ∀ c ∈ rest, c ≠ '\r') :
    strFind (str "GET /" ++ (List.replicate n 'a' ++ (str " HTTP/1.1\r\n" ++ rest)))
      (str "\r\n") (n + 16) = none := by
  unfold strFind
  rw [bigreq_drop]
  rw [show (str "\r\n") = '\r' :: str "\n" from rfl]
  rw [strFindAux_none_of_no_head '\r' (str "\n") rest 0 h]
  rfl

theorem bigreq_find2_crlf (n : Nat) :
    strFind (str "GET /" ++ (List.replicate n 'a' ++ (str " HTTP/1.1\r\n" ++ str "\r\n")))
      (str "\r\n") (n + 16) = some (n + 16) := by
  unfold strFind
  rw [bigreq_drop]
  rw [strFindAux_found _ _ 0 (by decide)]
  rw [Option.map_some']
  congr 1
  omega

/-- C5 counterexample: on `c5input` (8116-byte request line already consumed,
then 200 unterminated header bytes) the parser raises 431 / ERROR although
the unconsumed part of the buffer is only 200 bytes — the 8192-byte cap is
applied to the whole accumulated buffer, not to the unconsumed bytes the
claim speaks of. -/
theorem c5_counterexample_cap_counts_consumed_head :
    (parse freshReq c5input).1.state = ParseState.ERROR ∧
    (parse freshReq c5input).1.error_code = 431 ∧
    (parse freshReq c5input).1.raw_data.length -
      (parse freshReq c5input).1.bytes_parsed = 200 := by
  have hstep := bigreq_parse_step1 8100 (List.replicate 200 'x')
  rw [show c5input = str "GET /" ++ (List.replicate 8100 'a' ++
      (str " HTTP/1.1\r\n" ++ List.replicate 200 'x')) from rfl]
  rw [hstep]
  rw [show (8100 : Nat) + 16 + (List.replicate 200 'x' : Str).length + 1 = 8316 + 1 from by
    rw [List.length_replicate]]
  rw [parseLoop_step]
  dsimp only
  rw [if_neg (by decide), if_neg (by decide), if_neg (by decide)]
  rw [bigreq_find2_none 8100 (List.replicate 200 'x')
    (by intro c hc; rw [List.eq_of_mem_replicate hc]; decide)]
  dsimp only
  rw [if_pos (by rw [bigreq_len, List.length_replicate]; omega)]
  refine ⟨rfl, rfl, ?_⟩
  dsimp only
  rw [bigreq_len, List.length_replicate]

theorem getHeaderReq_nilHeaders (r : HttpRequest) (hh : r.headers = []) (key : Str) :
    getHeaderReq r key = [] := by
  unfold getHeaderReq
  rw [hh]
  rfl

theorem isChunkedReq_nilHeaders (r : HttpRequest) (hh : r.headers = []) :
    isChunkedReq r = false := by
  unfold isChunkedReq
  rw [getHeaderReq_nilHeaders r hh]
  rfl

theorem finishHeaders_state_nilHeaders (r : HttpRequest) (hh : r.headers = [])
    (hcl : r.content_length = 0) :
    (finishHeaders r).state = ParseState.COMPLETE := by
  unfold finishHeaders
  dsimp only
  rw [getHeaderReq_nilHeaders r hh (str "Content-Length"),
      getHeaderReq_nilHeaders r hh (str "Content-Type")]
  rw [if_neg ?_]
  intro h
  rcases h with h | h
  · rw [if_neg (by decide : ¬(([] : Str) ≠ []))] at h
    rw [hcl] at h
    exact absurd h (by decide)
  · unfold isChunkedReq getHeaderReq at h
    dsimp only at h
    rw [hh] at h
    exact absurd h (by decide)

theorem c3_oneshot_eval :
    (parse freshReq c3full).1.state = ParseState.COMPLETE ∧
      (parse freshReq c3full).2 = true := by
  rw [show c3full = str "GET /" ++ (List.replicate 8200 'a' ++
      (str " HTTP/1.1\r\n" ++ str "\r\n")) from rfl]
  rw [bigreq_parse_step1 8200 (str "\r\n")]
  rw [show (8200 : Nat) + 16 + (str "\r\n" : Str).length + 1 = 8218 + 1 from by decide]
  rw [parseLoop_step]
  dsimp only
  rw [if_neg (by decide), if_neg (by decide), if_neg (by decide)]
  rw [bigreq_find2_crlf 8200]
  dsimp only
  rw [Nat.sub_self]
  rw [show substrL (str "GET /" ++ (List.replicate 8200 'a' ++
      (str " HTTP/1.1\r\n" ++ str "\r\n"))) (8200 + 16) 0 = ([] : Str) from by
    unfold substrL
    rw [List.take_zero]]
  rw [if_neg (by decide)]
  rw [if_pos rfl]
  rw [parseLoop_terminal 8218 _ ?hterm]
  case hterm => refine Or.inl (finishHeaders_state_nilHeaders _ ?_ ?_) <;> rfl
  constructor
  · refine finishHeaders_state_nilHeaders _ ?_ ?_ <;> rfl
  · dsimp only
    refine decide_eq_true (finishHeaders_state_nilHeaders _ ?_ ?_) <;> rfl

theorem c3take : c3full.take 8193 = str "GET /" ++ List.replicate 8188 'a' := by
  rw [show c3full = str "GET /" ++ (List.replicate 8200 'a' ++
      (str " HTTP/1.1\r\n" ++ str "\r\n")) from rfl]
  rw [List.take_append_eq_append_take]
  rw [List.take_of_length_le (by rw [show (str "GET /").length = 5 from rfl]; omega)]
  rw [show (str "GET /").length = 5 from rfl]
  rw [List.take_append_eq_append_take]
  rw [List.take_replicate]
  rw [List.length_replicate]
  rw [show (8193 - 5 : Nat) ⊓ 8200 = 8188 from by decide]
  rw [show (8193 - 5 - 8200 : Nat) = 0 from by decide]
  rw [List.take_zero, List.append_nil]

theorem c3chunk1_eval :
    parse freshReq (str "GET /" ++ List.replicate 8188 'a') =
      ({ freshReq with
          raw_data := str "GET /" ++ List.replicate 8188 'a'
          error_code := 431
          state := ParseState.ERROR }, false) := by
  rw [parse_fresh_eq]
  unfold runLoop
  dsimp only
  rw [show (str "GET /" ++ List.replicate 8188 'a' : Str).length + 2 = 8194 + 1 from by
    rw [List.length_append, List.length_replicate]; decide]
  rw [parseLoop_step]
  dsimp only
  rw [show freshReq.state = ParseState.REQUEST_LINE from rfl]
  rw [if_neg (by decide), if_neg (by decide), if_neg (by decide)]
  rw [show freshReq.bytes_parsed = 0 from rfl]
  rw [show strFind (str "GET /" ++ List.replicate 8188 'a') (str "\r\n") 0 = none from by
    unfold strFind
    rw [List.drop_zero]
    rw [show (str "\r\n") = '\r' :: str "\n" from rfl]
    rw [strFindAux_none_of_no_head '\r' (str "\n") _ 0 (by
      intro c hc
      rcases List.mem_append.mp hc with h | h
      · exact (by decide : ∀ x ∈ str "GET /", x ≠ '\r') c h
      · rw [List.eq_of_mem_replicate h]; decide)]
    rfl]
  dsimp only
  rw [if_pos (by rw [List.length_append, List.length_replicate]; decide)]

/-- C3 counterexample: `c3full` is a complete well-formed GET request that a
single `parse` call accepts (COMPLETE, returns true), and `c3chunks` is a
two-chunk split of exactly the same bytes (both chunks non-empty, their
concatenation is `c3full`); yet feeding the chunks one call at a time ends
in ERROR with code 431, because the first chunk alone exceeds the 8192-byte
accumulation cap before any line terminator has arrived.  Chunk-boundary
independence therefore fails for requests whose head outgrows the cap. -/
theorem c3_counterexample_chunk_boundary :
    c3chunks.flatten = c3full ∧
    (∀ c ∈ c3chunks, c ≠ ([] : Str)) ∧
    (parse freshReq c3full).2 = true ∧
    (parse freshReq c3full).1.state = ParseState.COMPLETE ∧
    (feedAll freshReq c3chunks).2 = false ∧
    (feedAll freshReq c3chunks).1.state = ParseState.ERROR ∧
    (feedAll freshReq c3chunks).1.error_code = 431 := by
  have hlen : c3full.length = 8218 := by
    rw [show c3full = str "GET /" ++ (List.replicate 8200 'a' ++
        (str " HTTP/1.1\r\n" ++ str "\r\n")) from rfl]
    rw [bigreq_len]
    decide
  have hflat : c3chunks.flatten = c3full := by
    show c3full.take 8193 ++ (c3full.drop 8193 ++ []) = c3full
    rw [List.append_nil]
    exact List.take_append_drop 8193 c3full
  have hne : ∀ c ∈ c3chunks, c ≠ ([] : Str) := by
    intro c hc hnil
    have hlc := congrArg List.length hnil
    rw [List.length_nil] at hlc
    rcases List.mem_cons.mp hc with h | h
    · rw [h, List.length_take, hlen] at hlc
      omega
    · rcases List.mem_cons.mp h with h2 | h2
      · rw [h2, List.length_drop, hlen] at hlc
        omega
      · exact absurd h2 (List.not_mem_nil c)
  have hfeed : feedAll freshReq c3chunks =
      (({ freshReq with
          raw_data := str "GET /" ++ List.replicate 8188 'a'
          error_code := 431
          state := ParseState.ERROR } : HttpRequest), false) := by
    unfold feedAll
    rw [show c3chunks = [c3full.take 8193, c3full.drop 8193] from rfl]
    rw [List.foldl_cons, List.foldl_cons, List.foldl_nil]
    dsimp only
    rw [c3take]
    rw [c3chunk1_eval]
    dsimp only
    rw [parse_terminal _ _ (Or.inr ?hst)]
    case hst => rfl
    rfl
  exact ⟨hflat, hne, c3_oneshot_eval.2, c3_oneshot_eval.1,
    by rw [hfeed], by rw [hfeed], by rw [hfeed]⟩
